import Mathlib

/-!
# Stereo IIR filter bring-up routine (`software/baremetal/main.c`)

A shallow embedding of the bare-metal control program: the two filter driver
functions `IIR_Set_Coefficients` and `IIR_Enable`, and `main`, which prepares
the DMA buffers, maintains the data cache around the transfer, issues the two
one-shot transfers, polls for completion and decodes the result.

Conventions of the embedding.

* Unsigned 32-bit values are naturals, signed values are integers; every
  conversion between C types is an explicit reduction modulo `2^16` or `2^32`.
* A `float` is the rational number it denotes.  The only floating-point
  operation of the program is the product with `32768.0f`; it is the field
  `fmul` of the platform, and the theorems that depend on its result assume
  what IEEE 754 guarantees: a product that is itself a binary32 value is
  returned exactly.
* The program runs on a `Machine`: DMA-visible memory, the CPU data cache, the
  state of the DMA engine (the global `AxiDma`), and the trace of the
  operations performed so far.  Memory is addressed by byte address and holds
  one 32-bit word per (word-aligned) address.
* The data cache is a write-back cache: a CPU store stays in the cache until
  the range is flushed, a CPU load returns the cached copy when there is one,
  and the engine reads and writes DMA-visible memory only.  Lines are neither
  evicted nor fetched behind the program's back.
* The polling loop of `main` has no bound.  `main` takes a fuel, the number of
  evaluations of the loop condition it may spend, and returns no status when
  the fuel is used up; the trace it has produced until then is kept.
* The DMA driver, the cache maintenance routines and the float unit are not
  part of the sources; they are the fields of a `Platform`.
-/

namespace IIR

/-! ## Hardware address definitions (`main.c`, section 1) -/

def IIR_BASE_ADDR : Nat := 0xA0010000
def DMA_BASE_ADDR : Nat := 0xA0000000
def DMA_DEV_ID : Nat := 0

def REG_CTRL_OFFSET : Nat := 0x00
def REG_A0_OFFSET : Nat := 0x04
def REG_A1_OFFSET : Nat := 0x08
def REG_B1_OFFSET : Nat := 0x0C

def MEM_BASE_ADDR : Nat := 0x10000000
def RX_BUFFER_BASE : Nat := MEM_BASE_ADDR + 0x00100000
def TX_BUFFER_BASE : Nat := MEM_BASE_ADDR + 0x00200000
def TEST_LENGTH : Nat := 128

/-! ## Constants of the platform headers -/

/-- Modelled from the spec: the success status of the DMA driver calls; the
value is the one of the platform header `xstatus.h`, which is not among the
sources. -/
def XST_SUCCESS : Int := 0

/-- Modelled from the spec: the failure status that `main` returns (section 7
of the spec); the value is the one of the platform header `xstatus.h`, which is
not among the sources. -/
def XST_FAILURE : Int := 1

/-- Modelled from the spec: the mask naming every interrupt source of a DMA
channel (`DisableInterrupts(mask, direction)`); the value is the one of the
driver header `xaxidma_hw.h`, which is not among the sources. -/
def XAXIDMA_IRQ_ALL_MASK : Nat := 0x00007000

/-- The two transfer directions of the DMA engine (`XAXIDMA_DMA_TO_DEVICE` is
the transmit direction, `XAXIDMA_DEVICE_TO_DMA` the receive direction). -/
inductive Direction where
  | DMA_TO_DEVICE
  | DEVICE_TO_DMA
  deriving DecidableEq

/-! ## Integer conversions of C -/

/-- Conversion of an integer to `int16_t`: reduction modulo `2^16` into
`[-32768, 32767]`. -/
def toInt16 (n : Int) : Int := (n + 32768) % 65536 - 32768

/-- Conversion of an integer to `u32`: reduction modulo `2^32`. -/
def toU32 (n : Int) : Nat := (n % 4294967296).toNat

/-- The cast `(int16_t) x` of a `float` value `x`: the fractional part is
discarded, and the integer obtained is stored in 16 bits.  (For a value whose
integer part does not fit in 16 bits C leaves the result open; the model then
wraps.) -/
def castFloatToInt16 (x : ℚ) : Int := toInt16 (Int.tdiv x.num x.den)

/-- The expression `(left << 16) | (right & 0xFFFF)` of `main.c` line 94, on
32-bit two's complement values, stored in a `u32`. -/
def packFrame (left right : Int) : Nat :=
  ((toU32 left <<< 16) % 4294967296) ||| (toU32 right &&& 0xFFFF)

/-- The expression `(int16_t)(word >> 16)` of `main.c` line 140. -/
def decodeLeft (word : Nat) : Int := toInt16 ((word >>> 16 : Nat) : Int)

/-- The expression `(int16_t)(word & 0xFFFF)` of `main.c` line 141. -/
def decodeRight (word : Nat) : Int := toInt16 ((word &&& 0xFFFF : Nat) : Int)

/-! ## Words of the specification, to compare the code with -/

/-- Round toward zero, as the specification words it: the floor of a
non-negative value, the ceiling of a negative one. -/
def roundTowardZero (x : ℚ) : Int := if 0 ≤ x then ⌊x⌋ else ⌈x⌉

/-- Sign extension of a 16-bit two's complement integer to a 32-bit register
value. -/
def signExtend32 (v : Int) : Nat := if 0 ≤ v then v.toNat else (4294967296 + v).toNat

/-- The real value that a Q1.15 integer stands for. -/
def decodeQ15 (q : Int) : ℚ := (q : ℚ) / 32768

/-- The values of IEEE 754 binary32: a significand below `2^24` in magnitude
scaled by a power of two between `2^-149` and `2^104`. -/
def IsBinary32 (x : ℚ) : Prop :=
  ∃ m e : Int, |m| < 16777216 ∧ -149 ≤ e ∧ e ≤ 104 ∧ x = (m : ℚ) * (2 : ℚ) ^ e

/-! ## Operation trace -/

/-- The diagnostic lines of the program, in the order of the source. -/
inductive Msg where
  | banner
  | cfgNotFound
  | initFailed
  | coeffsUpdated
  | filterConfigured
  | rxFailed
  | txFailed
  | transferDone
  | sample
  deriving DecidableEq

/-- One operation of the program on its environment.  The events of the DMA
driver carry the answer that the engine gave. -/
inductive Event where
  | ICacheEnable
  | DCacheEnable
  | printf (msg : Msg) (args : List Int)
  | LookupConfig (deviceId : Nat) (cfgPtr : Nat)
  | CfgInitialize (cfgPtr : Nat) (status : Int)
  | IntrDisable (mask : Nat) (dir : Direction)
  | memset (addr : Nat) (byte : Nat) (len : Nat)
  | store (addr : Nat) (val : Nat)
  | load (addr : Nat) (val : Nat)
  | DCacheFlushRange (addr : Nat) (len : Nat)
  | DCacheInvalidateRange (addr : Nat) (len : Nat)
  | Out32 (addr : Nat) (val : Nat)
  | SimpleTransfer (addr : Nat) (len : Nat) (dir : Direction) (status : Int)
  | Busy (dir : Direction) (busy : Bool)
  deriving DecidableEq

/-! ## Machine and platform -/

/-- State of the system the program runs on. -/
structure Machine (σ : Type) where
  /-- DMA-visible memory: the word at each byte address. -/
  ram : Nat → Nat
  /-- CPU data cache: the words the CPU holds a copy of. -/
  cache : Nat → Option Nat
  /-- State of the DMA engine behind the global `AxiDma`. -/
  dma : σ
  /-- Operations performed so far, oldest first. -/
  trace : List Event

/-- What the program is linked against: the float unit, the cache controller
and the DMA driver.  The engine reads and writes DMA-visible memory when a
transfer is issued to it and when it is polled. -/
structure Platform (σ : Type) where
  /-- Product of two `float` values. -/
  fmul : ℚ → ℚ → ℚ
  /-- Whether a flushed line stays in the cache (clean) or is dropped. -/
  flushRetains : Bool
  /-- Driver call `XAxiDma_LookupConfig`: the descriptor address, 0 for none. -/
  LookupConfig : Nat → Nat
  /-- Driver call `XAxiDma_CfgInitialize`. -/
  CfgInitialize : σ → Nat → Int × σ
  /-- Driver call `XAxiDma_IntrDisable`. -/
  IntrDisable : σ → Nat → Direction → σ
  /-- Driver call `XAxiDma_SimpleTransfer`. -/
  SimpleTransfer : σ → (Nat → Nat) → Nat → Nat → Direction → Int × σ × (Nat → Nat)
  /-- Driver call `XAxiDma_Busy`. -/
  Busy : σ → (Nat → Nat) → Direction → Bool × σ × (Nat → Nat)

variable {σ : Type}

/-- Appends one event to the trace. -/
def emit (e : Event) (s : Machine σ) : Machine σ :=
  { s with trace := s.trace ++ [e] }

/-- The word the CPU sees at an address: its cached copy if it has one, else
the word in memory. -/
def cpuView (s : Machine σ) (addr : Nat) : Nat := (s.cache addr).getD (s.ram addr)

def Xil_ICacheEnable (s : Machine σ) : Machine σ := emit .ICacheEnable s

def Xil_DCacheEnable (s : Machine σ) : Machine σ := emit .DCacheEnable s

def xil_printf (msg : Msg) (args : List Int) (s : Machine σ) : Machine σ :=
  emit (.printf msg args) s

/-- Register write `Xil_Out32`. -/
def Xil_Out32 (addr val : Nat) (s : Machine σ) : Machine σ := emit (.Out32 addr val) s

/-- A CPU store of a 32-bit word: it lands in the cache. -/
def store (addr val : Nat) (s : Machine σ) : Machine σ :=
  { s with
    cache := fun x => if x = addr then some val else s.cache x
    trace := s.trace ++ [.store addr val] }

/-- A CPU load of a 32-bit word. -/
def load (addr : Nat) (s : Machine σ) : Nat × Machine σ :=
  (cpuView s addr, emit (.load addr (cpuView s addr)) s)

/-- The call `memset(addr, byte, len)`: every word of the range holds the byte
four times. -/
def memset (addr byte len : Nat) (s : Machine σ) : Machine σ :=
  { s with
    cache := fun x =>
      if addr ≤ x ∧ x < addr + len then some ((byte % 256) * 0x01010101) else s.cache x
    trace := s.trace ++ [.memset addr byte len] }

/-- Modelled from the spec: `Xil_DCacheFlushRange`, the publish operation of
section 4.3: the cached copies covering the range are written to DMA-visible
memory. -/
def Xil_DCacheFlushRange (P : Platform σ) (addr len : Nat) (s : Machine σ) : Machine σ :=
  { s with
    ram := fun x => if addr ≤ x ∧ x < addr + len then cpuView s x else s.ram x
    cache := fun x =>
      if addr ≤ x ∧ x < addr + len ∧ P.flushRetains = false then none else s.cache x
    trace := s.trace ++ [.DCacheFlushRange addr len] }

/-- Modelled from the spec: `Xil_DCacheInvalidateRange`, the acquire operation
of section 4.3: the cached copies covering the range are discarded. -/
def Xil_DCacheInvalidateRange (addr len : Nat) (s : Machine σ) : Machine σ :=
  { s with
    cache := fun x => if addr ≤ x ∧ x < addr + len then none else s.cache x
    trace := s.trace ++ [.DCacheInvalidateRange addr len] }

def XAxiDma_LookupConfig (P : Platform σ) (deviceId : Nat) (s : Machine σ) :
    Nat × Machine σ :=
  (P.LookupConfig deviceId, emit (.LookupConfig deviceId (P.LookupConfig deviceId)) s)

def XAxiDma_CfgInitialize (P : Platform σ) (cfgPtr : Nat) (s : Machine σ) :
    Int × Machine σ :=
  let r := P.CfgInitialize s.dma cfgPtr
  (r.1, { s with dma := r.2, trace := s.trace ++ [.CfgInitialize cfgPtr r.1] })

def XAxiDma_IntrDisable (P : Platform σ) (mask : Nat) (dir : Direction) (s : Machine σ) :
    Machine σ :=
  { s with dma := P.IntrDisable s.dma mask dir, trace := s.trace ++ [.IntrDisable mask dir] }

def XAxiDma_SimpleTransfer (P : Platform σ) (addr len : Nat) (dir : Direction)
    (s : Machine σ) : Int × Machine σ :=
  let r := P.SimpleTransfer s.dma s.ram addr len dir
  (r.1, { s with dma := r.2.1, ram := r.2.2,
                 trace := s.trace ++ [.SimpleTransfer addr len dir r.1] })

def XAxiDma_Busy (P : Platform σ) (dir : Direction) (s : Machine σ) : Bool × Machine σ :=
  let r := P.Busy s.dma s.ram dir
  (r.1, { s with dma := r.2.1, ram := r.2.2, trace := s.trace ++ [.Busy dir r.1] })

/-- A counted loop `for (i = start; ...; i++)` that runs `n` times. -/
def forLoop {S : Type} (body : Nat → S → S) : Nat → Nat → S → S
  | _, 0, s => s
  | i, n + 1, s => forLoop body (i + 1) n (body i s)

/-! ## Filter driver (`main.c`, section 2) -/

def IIR_Set_Coefficients (P : Platform σ) (a0 a1 b1 : ℚ) (s : Machine σ) : Machine σ :=
  let a0_fixed := castFloatToInt16 (P.fmul a0 32768)
  let a1_fixed := castFloatToInt16 (P.fmul a1 32768)
  let b1_fixed := castFloatToInt16 (P.fmul b1 32768)
  let s := Xil_Out32 (IIR_BASE_ADDR + REG_A0_OFFSET) (toU32 a0_fixed) s
  let s := Xil_Out32 (IIR_BASE_ADDR + REG_A1_OFFSET) (toU32 a1_fixed) s
  let s := Xil_Out32 (IIR_BASE_ADDR + REG_B1_OFFSET) (toU32 b1_fixed) s
  xil_printf .coeffsUpdated [a0_fixed, a1_fixed, b1_fixed] s

def IIR_Enable (enable clear : Nat) (s : Machine σ) : Machine σ :=
  let val := 0
  let val := if enable ≠ 0 then val ||| 0x01 else val
  let val := if clear ≠ 0 then val ||| 0x02 else val
  Xil_Out32 (IIR_BASE_ADDR + REG_CTRL_OFFSET) val s

/-! ## Main program (`main.c`, section 3) -/

/-- Section B, lines 87 to 98: clear the RX buffer, write the impulse. -/
def prepareBuffers (s : Machine σ) : Machine σ :=
  let s := memset RX_BUFFER_BASE 0 (TEST_LENGTH * 4) s
  let s := store (TX_BUFFER_BASE + 4 * 0) (packFrame 10000 10000) s
  forLoop (fun i s => store (TX_BUFFER_BASE + 4 * i) 0x00000000 s) 1 (TEST_LENGTH - 1) s

/-- Section B, lines 101 and 102: flush both buffers. -/
def flushBuffers (P : Platform σ) (s : Machine σ) : Machine σ :=
  let s := Xil_DCacheFlushRange P TX_BUFFER_BASE (TEST_LENGTH * 4) s
  Xil_DCacheFlushRange P RX_BUFFER_BASE (TEST_LENGTH * 4) s

/-- Section C: reset, load the coefficients, run. -/
def setupFilter (P : Platform σ) (s : Machine σ) : Machine σ :=
  let s := IIR_Enable 1 1 s
  let s := IIR_Set_Coefficients P (1 / 2) 0 (1 / 2) s
  let s := IIR_Enable 1 0 s
  xil_printf .filterConfigured [] s

/-- Section D.3: the polling loop.  Each unit of fuel pays for one evaluation
of the loop condition; the result is `true` when the loop was left. -/
def pollingWait (P : Platform σ) : Nat → Machine σ → Bool × Machine σ
  | 0, s => (false, s)
  | fuel + 1, s =>
    let tx := XAxiDma_Busy P .DMA_TO_DEVICE s
    if tx.1 then pollingWait P fuel tx.2
    else
      let rx := XAxiDma_Busy P .DEVICE_TO_DMA tx.2
      if rx.1 then pollingWait P fuel rx.2 else (true, rx.2)

/-- Section E: decode and report the first ten frames of the RX buffer. -/
def checkResult (s : Machine σ) : Machine σ :=
  let s := xil_printf .transferDone [] s
  forLoop (fun i s =>
    let w1 := load (RX_BUFFER_BASE + 4 * i) s
    let left_out := decodeLeft w1.1
    let w2 := load (RX_BUFFER_BASE + 4 * i) w1.2
    let right_out := decodeRight w2.1
    xil_printf .sample [(i : Int), left_out, right_out] w2.2) 0 10 s

/-- Section D and E, from the first transfer on. -/
def transferAndCheck (P : Platform σ) (fuel : Nat) (s : Machine σ) :
    Option Int × Machine σ :=
  let rx := XAxiDma_SimpleTransfer P RX_BUFFER_BASE (TEST_LENGTH * 4) .DEVICE_TO_DMA s
  if rx.1 ≠ XST_SUCCESS then (some XST_FAILURE, xil_printf .rxFailed [] rx.2)
  else
    let tx := XAxiDma_SimpleTransfer P TX_BUFFER_BASE (TEST_LENGTH * 4) .DMA_TO_DEVICE rx.2
    if tx.1 ≠ XST_SUCCESS then (some XST_FAILURE, xil_printf .txFailed [] tx.2)
    else
      let w := pollingWait P fuel tx.2
      if w.1 then
        let s := Xil_DCacheInvalidateRange RX_BUFFER_BASE (TEST_LENGTH * 4) w.2
        (some 0, checkResult s)
      else (none, w.2)

/-- The program.  The result is the exit status, or `none` when the fuel ran
out while the polling loop was still spinning. -/
def main (P : Platform σ) (fuel : Nat) (s : Machine σ) : Option Int × Machine σ :=
  let s := Xil_ICacheEnable s
  let s := Xil_DCacheEnable s
  let s := xil_printf .banner [] s
  let cfg := XAxiDma_LookupConfig P DMA_DEV_ID s
  if cfg.1 = 0 then (some XST_FAILURE, xil_printf .cfgNotFound [] cfg.2)
  else
    let ini := XAxiDma_CfgInitialize P cfg.1 cfg.2
    if ini.1 ≠ XST_SUCCESS then (some XST_FAILURE, xil_printf .initFailed [] ini.2)
    else
      let s := XAxiDma_IntrDisable P XAXIDMA_IRQ_ALL_MASK .DEVICE_TO_DMA ini.2
      let s := XAxiDma_IntrDisable P XAXIDMA_IRQ_ALL_MASK .DMA_TO_DEVICE s
      let s := prepareBuffers s
      let s := flushBuffers P s
      let s := setupFilter P s
      transferAndCheck P fuel s

/-- The machine at program start: memory, cache and engine in any state, no
operation performed yet. -/
def boot (ram : Nat → Nat) (cache : Nat → Option Nat) (dma : σ) : Machine σ :=
  { ram := ram, cache := cache, dma := dma, trace := [] }

/-! ## A loop-back engine

The test double of the identity round trip: it accepts every request, and once
both channels hold a request it copies the transmit buffer to the receive
buffer in DMA-visible memory; it never reports busy. -/

/-- State of the loop-back engine: the request each channel holds, as buffer
address and byte length. -/
structure Loopback where
  rx : Option (Nat × Nat)
  tx : Option (Nat × Nat)

/-- The data movement of the loop-back engine. -/
def Loopback.move (d : Loopback) (ram : Nat → Nat) : Loopback × (Nat → Nat) :=
  match d.rx, d.tx with
  | some (dst, n), some (src, m) =>
    (⟨none, none⟩, fun x => if dst ≤ x ∧ x < dst + min n m then ram (src + (x - dst)) else ram x)
  | _, _ => (d, ram)

/-- The platform made of the loop-back engine, an exact float unit and a cache
controller that keeps or drops flushed lines.  `cfgPtr` is the descriptor
address its lookup returns. -/
def loopback (cfgPtr : Nat) (retains : Bool) : Platform Loopback where
  fmul := fun x y => x * y
  flushRetains := retains
  LookupConfig := fun _ => cfgPtr
  CfgInitialize := fun _ _ => (XST_SUCCESS, ⟨none, none⟩)
  IntrDisable := fun d _ _ => d
  SimpleTransfer := fun d ram addr len dir =>
    match dir with
    | .DEVICE_TO_DMA => (XST_SUCCESS, Loopback.move { d with rx := some (addr, len) } ram)
    | .DMA_TO_DEVICE => (XST_SUCCESS, Loopback.move { d with tx := some (addr, len) } ram)
  Busy := fun d ram _ => (false, d, ram)

/-! ## Shape of the traces of `main` -/

/-- Modelled from the spec: the fixture `BuildImpulseTestVector`: frame 0 is
(10000, 10000), every other frame is (0, 0). -/
def impulseFrame (i : Nat) : Int × Int := if i = 0 then (10000, 10000) else (0, 0)

/-- The word that holds frame `i` of the impulse test vector. -/
def impulseWord (i : Nat) : Nat := if i = 0 then 0x27102710 else 0

/-- Events before the configuration lookup. -/
def headerEvents : List Event :=
  [.ICacheEnable, .DCacheEnable, .printf .banner []]

/-- Events of the buffer preparation (lines 91 to 98). -/
def prepareEvents : List Event :=
  .memset RX_BUFFER_BASE 0 512 :: .store TX_BUFFER_BASE 0x27102710 ::
    (List.range' 1 127).map (fun i => Event.store (TX_BUFFER_BASE + 4 * i) 0)

/-- Events of the two cache flushes (lines 101 and 102). -/
def flushEvents : List Event :=
  [.DCacheFlushRange TX_BUFFER_BASE 512, .DCacheFlushRange RX_BUFFER_BASE 512]

/-- Events of the filter setup (lines 105 to 109). -/
def filterEvents (P : Platform σ) : List Event :=
  [.Out32 IIR_BASE_ADDR 3,
   .Out32 (IIR_BASE_ADDR + 0x04) (toU32 (castFloatToInt16 (P.fmul (1 / 2) 32768))),
   .Out32 (IIR_BASE_ADDR + 0x08) (toU32 (castFloatToInt16 (P.fmul 0 32768))),
   .Out32 (IIR_BASE_ADDR + 0x0C) (toU32 (castFloatToInt16 (P.fmul (1 / 2) 32768))),
   .printf .coeffsUpdated [castFloatToInt16 (P.fmul (1 / 2) 32768),
     castFloatToInt16 (P.fmul 0 32768), castFloatToInt16 (P.fmul (1 / 2) 32768)],
   .Out32 IIR_BASE_ADDR 1,
   .printf .filterConfigured []]

/-- Events of a run up to the first transfer, when the engine was found and
initialised. -/
def setupEvents (P : Platform σ) (cfgPtr : Nat) : List Event :=
  headerEvents ++
    [.LookupConfig DMA_DEV_ID cfgPtr, .CfgInitialize cfgPtr XST_SUCCESS,
     .IntrDisable XAXIDMA_IRQ_ALL_MASK .DEVICE_TO_DMA,
     .IntrDisable XAXIDMA_IRQ_ALL_MASK .DMA_TO_DEVICE] ++
    prepareEvents ++ flushEvents ++ filterEvents P

/-- Events of the result check (lines 138 to 143), when the CPU sees `word i`
at index `i` of the RX buffer. -/
def checkEvents (word : Nat → Nat) : List Event :=
  .printf .transferDone [] ::
    (List.range' 0 10).flatMap (fun i =>
      [Event.load (RX_BUFFER_BASE + 4 * i) (word i),
       Event.load (RX_BUFFER_BASE + 4 * i) (word i),
       Event.printf .sample [(i : Int), decodeLeft (word i), decodeRight (word i)]])

/-- The receive-direction issue of `main`, with the status the engine gave. -/
def rxIssue (status : Int) : Event :=
  .SimpleTransfer RX_BUFFER_BASE 512 .DEVICE_TO_DMA status

/-- The transmit-direction issue of `main`, with the status the engine gave. -/
def txIssue (status : Int) : Event :=
  .SimpleTransfer TX_BUFFER_BASE 512 .DMA_TO_DEVICE status

/-- The last evaluation of the polling condition: both channels idle. -/
def idleEvents : List Event :=
  [.Busy .DMA_TO_DEVICE false, .Busy .DEVICE_TO_DMA false]

def Event.isBusy : Event → Bool
  | .Busy _ _ => true
  | _ => false

def Event.isPrintf : Event → Bool
  | .printf _ _ => true
  | _ => false

/-- A transfer issue, in either direction. -/
def Event.isTransfer : Event → Bool
  | .SimpleTransfer _ _ _ _ => true
  | _ => false

/-- A transfer issue in the given direction. -/
def Event.isTransferTo (d : Direction) : Event → Bool
  | .SimpleTransfer _ _ dir _ => decide (dir = d)
  | _ => false

def Event.isLookup : Event → Bool
  | .LookupConfig _ _ => true
  | _ => false

def Event.isCfgInitialize : Event → Bool
  | .CfgInitialize _ _ => true
  | _ => false

/-- A CPU write into the `len` bytes at `base`. -/
def Event.writesRange (base len : Nat) : Event → Bool
  | .store addr _ => decide (base ≤ addr ∧ addr < base + len)
  | .memset addr _ n => decide (addr < base + len ∧ base < addr + n)
  | _ => false

/-- A CPU read from the `len` bytes at `base`. -/
def Event.readsRange (base len : Nat) : Event → Bool
  | .load addr _ => decide (base ≤ addr ∧ addr < base + len)
  | _ => false

/-- A driver call that the engine answered with a failure: no descriptor, or
a status other than `XST_SUCCESS`. -/
def Event.isFailure : Event → Bool
  | .LookupConfig _ cfgPtr => decide (cfgPtr = 0)
  | .CfgInitialize _ status => decide (status ≠ XST_SUCCESS)
  | .SimpleTransfer _ _ _ status => decide (status ≠ XST_SUCCESS)
  | _ => false

/-- The runs of `main`: exit status (`none` while the polling loop spins) and
trace. -/
inductive MainRun (P : Platform σ) : Option Int → List Event → Prop where
  | cfgNotFound :
      MainRun P (some XST_FAILURE)
        (headerEvents ++ [.LookupConfig DMA_DEV_ID 0, .printf .cfgNotFound []])
  | initFailed (cfgPtr : Nat) (status : Int) :
      cfgPtr ≠ 0 → status ≠ XST_SUCCESS →
      MainRun P (some XST_FAILURE)
        (headerEvents ++ [.LookupConfig DMA_DEV_ID cfgPtr, .CfgInitialize cfgPtr status,
          .printf .initFailed []])
  | rxFailed (cfgPtr : Nat) (status : Int) :
      cfgPtr ≠ 0 → status ≠ XST_SUCCESS →
      MainRun P (some XST_FAILURE)
        (setupEvents P cfgPtr ++ [rxIssue status, .printf .rxFailed []])
  | txFailed (cfgPtr : Nat) (status : Int) :
      cfgPtr ≠ 0 → status ≠ XST_SUCCESS →
      MainRun P (some XST_FAILURE)
        (setupEvents P cfgPtr ++ [rxIssue XST_SUCCESS, txIssue status, .printf .txFailed []])
  | spinning (cfgPtr : Nat) (polls : List Event) :
      cfgPtr ≠ 0 → (∀ e ∈ polls, e.isBusy = true) →
      MainRun P none
        (setupEvents P cfgPtr ++ [rxIssue XST_SUCCESS, txIssue XST_SUCCESS] ++ polls)
  | done (cfgPtr : Nat) (polls : List Event) (word : Nat → Nat) :
      cfgPtr ≠ 0 → (∀ e ∈ polls, e.isBusy = true) →
      MainRun P (some 0)
        (setupEvents P cfgPtr ++ [rxIssue XST_SUCCESS, txIssue XST_SUCCESS] ++ polls ++
          idleEvents ++ [.DCacheInvalidateRange RX_BUFFER_BASE 512] ++ checkEvents word)

/-! ## The engine's answers along a run -/

/-- One evaluation of the condition of the polling loop (line 129),
`XAxiDma_Busy(TX) || XAxiDma_Busy(RX)`: the receive channel is asked only
when the transmit channel is idle. -/
def pollCondition (P : Platform σ) (s : Machine σ) : Bool × Machine σ :=
  let tx := XAxiDma_Busy P .DMA_TO_DEVICE s
  if tx.1 then (true, tx.2) else XAxiDma_Busy P .DEVICE_TO_DMA tx.2

/-- The machine after `n` evaluations of the polling condition. -/
def afterPolls (P : Platform σ) : Nat → Machine σ → Machine σ
  | 0, s => s
  | n + 1, s => afterPolls P n (pollCondition P s).2

/-- The machine after lines 63 to 84, when the engine was found and
initialised. -/
def initialised (P : Platform σ) (ram : Nat → Nat) (cache : Nat → Option Nat) (dma : σ) :
    Machine σ :=
  XAxiDma_IntrDisable P XAXIDMA_IRQ_ALL_MASK .DMA_TO_DEVICE
    (XAxiDma_IntrDisable P XAXIDMA_IRQ_ALL_MASK .DEVICE_TO_DMA
      (XAxiDma_CfgInitialize P (P.LookupConfig DMA_DEV_ID)
        (XAxiDma_LookupConfig P DMA_DEV_ID (xil_printf .banner []
          (Xil_DCacheEnable (Xil_ICacheEnable (boot ram cache dma))))).2).2)

/-- The machine in which the first transfer is issued (line 113). -/
def atFirstTransfer (P : Platform σ) (ram : Nat → Nat) (cache : Nat → Option Nat) (dma : σ) :
    Machine σ :=
  setupFilter P (flushBuffers P (prepareBuffers (initialised P ram cache dma)))

/-- The receive-direction issue of line 113: the engine's answer and the
machine after it. -/
def rxAnswer (P : Platform σ) (ram : Nat → Nat) (cache : Nat → Option Nat) (dma : σ) :
    Int × Machine σ :=
  XAxiDma_SimpleTransfer P RX_BUFFER_BASE (TEST_LENGTH * 4) .DEVICE_TO_DMA
    (atFirstTransfer P ram cache dma)

/-- The transmit-direction issue of line 121: the engine's answer and the
machine after it. -/
def txAnswer (P : Platform σ) (ram : Nat → Nat) (cache : Nat → Option Nat) (dma : σ) :
    Int × Machine σ :=
  XAxiDma_SimpleTransfer P TX_BUFFER_BASE (TEST_LENGTH * 4) .DMA_TO_DEVICE
    (rxAnswer P ram cache dma).2

/-- An engine that follows a script: its lookup returns `cfgPtr`, its
initialise, receive issue and transmit issue answer with the given statuses,
and after initialisation it reports busy to the next `busyPolls` queries. -/
def scripted (cfgPtr : Nat) (iniStatus rxStatus txStatus : Int) (busyPolls : Nat) :
    Platform Nat where
  fmul := fun x y => x * y
  flushRetains := false
  LookupConfig := fun _ => cfgPtr
  CfgInitialize := fun _ _ => (iniStatus, busyPolls)
  IntrDisable := fun d _ _ => d
  SimpleTransfer := fun d ram _ _ dir =>
    match dir with
    | .DEVICE_TO_DMA => (rxStatus, d, ram)
    | .DMA_TO_DEVICE => (txStatus, d, ram)
  Busy := fun d ram _ => (decide (0 < d), d - 1, ram)

/-! ## Arithmetic of the conversions -/

theorem toInt16_of_range (v : Int) (h1 : -32768 ≤ v) (h2 : v ≤ 32767) : toInt16 v = v := by
  unfold toInt16; omega

theorem toU32_eq_signExtend32 (v : Int) (h1 : -32768 ≤ v) (h2 : v ≤ 32767) :
    toU32 v = signExtend32 v := by
  unfold toU32 signExtend32
  split <;> omega

theorem tdiv_num_den_eq_roundTowardZero (x : ℚ) :
    Int.tdiv x.num x.den = roundTowardZero x := by
  unfold roundTowardZero
  by_cases hx : 0 ≤ x
  · rw [if_pos hx, Rat.floor_def]
    exact Int.tdiv_eq_ediv (Rat.num_nonneg.mpr hx) (by positivity)
  · rw [if_neg hx]
    have hneg : 0 ≤ -x := by linarith [not_le.mp hx]
    have h1 : ⌈x⌉ = -⌊-x⌋ := by rw [Int.floor_neg, neg_neg]
    rw [h1, Rat.floor_def, Rat.num_neg_eq_neg_num, Rat.den_neg_eq_den]
    rw [← Int.tdiv_eq_ediv (by simpa using Rat.num_nonneg.mpr hneg) (by positivity)]
    rw [Int.neg_tdiv, neg_neg]

theorem roundTowardZero_range (x : ℚ) (h1 : -32768 ≤ x) (h2 : x < 32768) :
    -32768 ≤ roundTowardZero x ∧ roundTowardZero x ≤ 32767 := by
  unfold roundTowardZero
  split
  · next hx =>
    constructor
    · have : (0 : Int) ≤ ⌊x⌋ := Int.floor_nonneg.mpr hx
      omega
    · have : ⌊x⌋ < 32768 := Int.floor_lt.mpr (by exact_mod_cast h2)
      omega
  · next hx =>
    constructor
    · exact Int.le_ceil_iff.mpr (by push_cast; linarith)
    · have : ⌈x⌉ ≤ 0 := Int.ceil_le.mpr (by push_cast; linarith)
      omega

theorem castFloatToInt16_eq (x : ℚ) (h1 : -32768 ≤ x) (h2 : x < 32768) :
    castFloatToInt16 x = roundTowardZero x := by
  unfold castFloatToInt16
  rw [tdiv_num_den_eq_roundTowardZero]
  exact toInt16_of_range _ (roundTowardZero_range x h1 h2).1 (roundTowardZero_range x h1 h2).2

theorem roundTowardZero_error (x : ℚ) :
    |(roundTowardZero x : ℚ) - x| < 1 := by
  unfold roundTowardZero
  split
  · have h1 := Int.floor_le x
    have h2 := Int.lt_floor_add_one x
    rw [abs_lt]; constructor <;> linarith
  · have h1 := Int.le_ceil x
    have h2 := Int.ceil_lt_add_one x
    rw [abs_lt]; constructor <;> linarith

theorem isBinary32_32768 : IsBinary32 32768 :=
  ⟨1, 15, by norm_num, by norm_num, by norm_num, by norm_num⟩

theorem isBinary32_scale (c : ℚ) (hc : IsBinary32 c) (h1 : -1 ≤ c) (h2 : c < 1) :
    IsBinary32 (c * 32768) := by
  obtain ⟨m, e, hm, he1, he2, rfl⟩ := hc
  by_cases hm0 : m = 0
  · exact ⟨0, 0, by norm_num, by norm_num, by norm_num, by simp [hm0]⟩
  · have he : e ≤ 0 := by
      by_contra hcon
      have hge : (1 : ℚ) ≤ (2 : ℚ) ^ (e - 1) := one_le_zpow₀ (by norm_num) (by omega)
      have hsplit : (2 : ℚ) ^ e = (2 : ℚ) ^ (e - 1) * 2 := by
        rw [← zpow_add_one₀ (by norm_num : (2 : ℚ) ≠ 0)]; congr 1; ring
      rcases lt_or_gt_of_ne hm0 with hneg | hpos
      · have : (m : ℚ) ≤ -1 := by exact_mod_cast (by omega : m ≤ -1)
        nlinarith
      · have : (1 : ℚ) ≤ (m : ℚ) := by exact_mod_cast (by omega : 1 ≤ m)
        nlinarith
    refine ⟨m, e + 15, hm, by omega, by omega, ?_⟩
    rw [zpow_add₀ (by norm_num : (2 : ℚ) ≠ 0)]
    norm_num
    ring

/-- The Q1.15 encoding computed by `IIR_Set_Coefficients` for a binary32
coefficient in `[-1, 1)` is the truncation of the scaled value. -/
theorem q15_encoding (P : Platform σ) (c : ℚ)
    (hmul : ∀ x y, IsBinary32 x → IsBinary32 y → IsBinary32 (x * y) → P.fmul x y = x * y)
    (hc : IsBinary32 c) (h1 : -1 ≤ c) (h2 : c < 1) :
    castFloatToInt16 (P.fmul c 32768) = roundTowardZero (c * 2 ^ 15) ∧
    toU32 (castFloatToInt16 (P.fmul c 32768)) = signExtend32 (roundTowardZero (c * 2 ^ 15)) ∧
    -32768 ≤ roundTowardZero (c * 2 ^ 15) ∧ roundTowardZero (c * 2 ^ 15) ≤ 32767 := by
  have hx : P.fmul c 32768 = c * 2 ^ 15 := by
    rw [hmul c 32768 hc isBinary32_32768 (isBinary32_scale c hc h1 h2)]; norm_num
  have hr := roundTowardZero_range (c * 2 ^ 15) (by linarith) (by linarith)
  rw [hx, castFloatToInt16_eq _ (by linarith) (by linarith)]
  exact ⟨rfl, toU32_eq_signExtend32 _ hr.1 hr.2, hr⟩

theorem packFrame_eq (left right : Int) :
    packFrame left right = 65536 * (left % 65536).toNat + (right % 65536).toNat := by
  unfold packFrame toU32
  have hA : ((left % 4294967296).toNat <<< 16) % 4294967296
      = 2 ^ 16 * (left % 65536).toNat := by
    rw [Nat.shiftLeft_eq]; omega
  have hB : (right % 4294967296).toNat &&& 0xFFFF = (right % 65536).toNat := by
    have := Nat.and_pow_two_sub_one_eq_mod (right % 4294967296).toNat 16
    norm_num at this
    rw [this]; omega
  have hlt : (right % 65536).toNat < 2 ^ 16 := by omega
  rw [hA, hB, ← Nat.mul_add_lt_is_or hlt]

theorem decodeLeft_eq (a b : Nat) (hb : b < 65536) :
    decodeLeft (65536 * a + b) = toInt16 a := by
  unfold decodeLeft
  rw [Nat.shiftRight_eq_div_pow]
  congr 2
  omega

theorem decodeRight_eq (a b : Nat) (hb : b < 65536) :
    decodeRight (65536 * a + b) = toInt16 b := by
  unfold decodeRight
  have := Nat.and_pow_two_sub_one_eq_mod (65536 * a + b) 16
  norm_num at this
  rw [this]
  congr 2
  omega

/-- C4: decoding a word (lines 140 and 141) is the exact inverse of the packing
of line 94, for every pair of signed 16-bit lanes, negative ones included; the
word 0x27102710 decodes to (10000, 10000). -/
theorem decode_packFrame (left right : Int)
    (hl : -32768 ≤ left ∧ left ≤ 32767) (hr : -32768 ≤ right ∧ right ≤ 32767) :
    decodeLeft (packFrame left right) = left ∧
    decodeRight (packFrame left right) = right ∧
    decodeLeft 0x27102710 = 10000 ∧ decodeRight 0x27102710 = 10000 := by
  rw [packFrame_eq]
  refine ⟨?_, ?_, by decide, by decide⟩
  · rw [decodeLeft_eq _ _ (by omega)]; unfold toInt16; omega
  · rw [decodeRight_eq _ _ (by omega)]; unfold toInt16; omega

theorem decode_packFrame_witness :
    packFrame (-2) (-32768) = 0xFFFE8000 ∧
    decodeLeft (packFrame (-2) (-32768)) = -2 ∧
    decodeRight (packFrame (-2) (-32768)) = -32768 ∧
    decodeLeft 0x27102710 = 10000 ∧ decodeRight 0x27102710 = 10000 :=
  ⟨by decide, decode_packFrame (-2) (-32768) (by decide) (by decide)⟩

/-- C3: `IIR_Enable` performs exactly one register write, to the control
register at filter base + 0x00; bit 0 of the value is set iff `enable` is
non-zero, bit 1 iff `clear` is non-zero, every other bit is zero, so the value
is one of 0, 1, 2, 3.  `IIR_Enable(1,1)` then `IIR_Enable(1,0)` writes 0x03
then 0x01. -/
theorem IIR_Enable_control_write (enable clear : Nat) (s : Machine σ) :
    ∃ val : Nat,
      (IIR_Enable enable clear s).trace = s.trace ++ [.Out32 (0xA0010000 + 0x00) val] ∧
      (val.testBit 0 = true ↔ enable ≠ 0) ∧
      (val.testBit 1 = true ↔ clear ≠ 0) ∧
      (∀ k, 2 ≤ k → val.testBit k = false) ∧
      (val = 0 ∨ val = 1 ∨ val = 2 ∨ val = 3) ∧
      (IIR_Enable enable clear s).ram = s.ram ∧
      (IIR_Enable enable clear s).cache = s.cache ∧
      (IIR_Enable enable clear s).dma = s.dma ∧
      (IIR_Enable 1 0 (IIR_Enable 1 1 s)).trace =
        s.trace ++ [.Out32 0xA0010000 0x03, .Out32 0xA0010000 0x01] := by
  have hbits : ∀ v : Nat, v < 4 → ∀ k, 2 ≤ k → v.testBit k = false := by
    intro v hv k hk
    apply Nat.testBit_eq_false_of_lt
    calc v < 4 := hv
      _ = 2 ^ 2 := by norm_num
      _ ≤ 2 ^ k := Nat.pow_le_pow_right (by norm_num) hk
  by_cases he : enable = 0 <;> by_cases hc : clear = 0
  · exact ⟨0, by simp [IIR_Enable, Xil_Out32, emit, he, hc, IIR_BASE_ADDR, REG_CTRL_OFFSET],
      by simp [he], by simp [hc], hbits 0 (by norm_num), by simp, rfl, rfl, rfl,
      by simp [IIR_Enable, Xil_Out32, emit, IIR_BASE_ADDR, REG_CTRL_OFFSET]⟩
  · exact ⟨2, by simp [IIR_Enable, Xil_Out32, emit, he, hc, IIR_BASE_ADDR, REG_CTRL_OFFSET],
      by simp [he, Nat.testBit], by simp [hc, Nat.testBit], hbits 2 (by norm_num), by simp,
      rfl, rfl, rfl,
      by simp [IIR_Enable, Xil_Out32, emit, IIR_BASE_ADDR, REG_CTRL_OFFSET]⟩
  · exact ⟨1, by simp [IIR_Enable, Xil_Out32, emit, he, hc, IIR_BASE_ADDR, REG_CTRL_OFFSET],
      by simp [he, Nat.testBit], by simp [hc, Nat.testBit], hbits 1 (by norm_num), by simp,
      rfl, rfl, rfl,
      by simp [IIR_Enable, Xil_Out32, emit, IIR_BASE_ADDR, REG_CTRL_OFFSET]⟩
  · exact ⟨3, by simp [IIR_Enable, Xil_Out32, emit, he, hc, IIR_BASE_ADDR, REG_CTRL_OFFSET],
      by simp [he, Nat.testBit], by simp [hc, Nat.testBit], hbits 3 (by norm_num), by simp,
      rfl, rfl, rfl,
      by simp [IIR_Enable, Xil_Out32, emit, IIR_BASE_ADDR, REG_CTRL_OFFSET]⟩

/-! ## Traces of the stages of `main` -/

theorem forLoop_store (base v : Nat) (n : Nat) : ∀ (i : Nat) (s : Machine σ),
    (forLoop (fun i s => store (base + 4 * i) v s) i n s).trace =
      s.trace ++ (List.range' i n).map (fun i => Event.store (base + 4 * i) v) ∧
    (forLoop (fun i s => store (base + 4 * i) v s) i n s).ram = s.ram ∧
    (forLoop (fun i s => store (base + 4 * i) v s) i n s).dma = s.dma ∧
    (∀ j, i ≤ j → j < i + n →
      (forLoop (fun i s => store (base + 4 * i) v s) i n s).cache (base + 4 * j) = some v) ∧
    (∀ x, (∀ j, i ≤ j → j < i + n → x ≠ base + 4 * j) →
      (forLoop (fun i s => store (base + 4 * i) v s) i n s).cache x = s.cache x) := by
  induction n with
  | zero =>
    intro i s
    refine ⟨by simp [forLoop], rfl, rfl, ?_, ?_⟩
    · intro j h1 h2; omega
    · intro x _; rfl
  | succ n ih =>
    intro i s
    obtain ⟨h1, h2, h3, h4, h5⟩ := ih (i + 1) (store (base + 4 * i) v s)
    refine ⟨?_, ?_, ?_, ?_, ?_⟩
    · simp only [forLoop, h1]
      simp [store, List.range'_succ]
    · simp only [forLoop, h2]; rfl
    · simp only [forLoop, h3]; rfl
    · intro j hj1 hj2
      simp only [forLoop]
      by_cases hji : j = i
      · subst hji
        rw [h5 _ (by intro k hk1 hk2; omega)]
        simp [store]
      · exact h4 j (by omega) (by omega)
    · intro x hx
      simp only [forLoop]
      rw [h5 x (fun j hj1 hj2 => hx j (by omega) (by omega))]
      have := hx i (le_refl _) (by omega)
      simp [store, this]

theorem prepareBuffers_trace (s : Machine σ) :
    (prepareBuffers s).trace = s.trace ++ prepareEvents := by
  unfold prepareBuffers
  rw [(forLoop_store TX_BUFFER_BASE 0 (TEST_LENGTH - 1) 1 _).1]
  have hp : packFrame 10000 10000 = 0x27102710 := by decide
  simp [store, memset, prepareEvents, TEST_LENGTH, hp]

theorem prepareBuffers_ram (s : Machine σ) : (prepareBuffers s).ram = s.ram := by
  unfold prepareBuffers
  rw [(forLoop_store TX_BUFFER_BASE 0 (TEST_LENGTH - 1) 1 _).2.1]
  rfl

theorem prepareBuffers_dma (s : Machine σ) : (prepareBuffers s).dma = s.dma := by
  unfold prepareBuffers
  rw [(forLoop_store TX_BUFFER_BASE 0 (TEST_LENGTH - 1) 1 _).2.2.1]
  rfl

theorem flushBuffers_trace (P : Platform σ) (s : Machine σ) :
    (flushBuffers P s).trace = s.trace ++ flushEvents := by
  simp [flushBuffers, Xil_DCacheFlushRange, flushEvents, TEST_LENGTH]

theorem IIR_Set_Coefficients_trace (P : Platform σ) (a0 a1 b1 : ℚ) (s : Machine σ) :
    (IIR_Set_Coefficients P a0 a1 b1 s).trace = s.trace ++
      [.Out32 (IIR_BASE_ADDR + 0x04) (toU32 (castFloatToInt16 (P.fmul a0 32768))),
       .Out32 (IIR_BASE_ADDR + 0x08) (toU32 (castFloatToInt16 (P.fmul a1 32768))),
       .Out32 (IIR_BASE_ADDR + 0x0C) (toU32 (castFloatToInt16 (P.fmul b1 32768))),
       .printf .coeffsUpdated [castFloatToInt16 (P.fmul a0 32768),
         castFloatToInt16 (P.fmul a1 32768), castFloatToInt16 (P.fmul b1 32768)]] := by
  simp [IIR_Set_Coefficients, Xil_Out32, xil_printf, emit, REG_A0_OFFSET, REG_A1_OFFSET,
    REG_B1_OFFSET]

theorem setupFilter_trace (P : Platform σ) (s : Machine σ) :
    (setupFilter P s).trace = s.trace ++ filterEvents P := by
  simp [setupFilter, IIR_Set_Coefficients_trace, IIR_Enable, Xil_Out32, xil_printf, emit,
    filterEvents, REG_CTRL_OFFSET]

theorem setupFilter_state (P : Platform σ) (s : Machine σ) :
    (setupFilter P s).ram = s.ram ∧ (setupFilter P s).cache = s.cache ∧
    (setupFilter P s).dma = s.dma :=
  ⟨rfl, rfl, rfl⟩

theorem checkLoop (n : Nat) : ∀ (i : Nat) (s : Machine σ),
    (forLoop (fun i s =>
      xil_printf .sample [(i : Int), decodeLeft (load (RX_BUFFER_BASE + 4 * i) s).1,
        decodeRight (load (RX_BUFFER_BASE + 4 * i) (load (RX_BUFFER_BASE + 4 * i) s).2).1]
        (load (RX_BUFFER_BASE + 4 * i) (load (RX_BUFFER_BASE + 4 * i) s).2).2) i n s).trace =
      s.trace ++ (List.range' i n).flatMap (fun i =>
        [Event.load (RX_BUFFER_BASE + 4 * i) (cpuView s (RX_BUFFER_BASE + 4 * i)),
         Event.load (RX_BUFFER_BASE + 4 * i) (cpuView s (RX_BUFFER_BASE + 4 * i)),
         Event.printf .sample [(i : Int), decodeLeft (cpuView s (RX_BUFFER_BASE + 4 * i)),
           decodeRight (cpuView s (RX_BUFFER_BASE + 4 * i))]]) := by
  induction n with
  | zero => intro i s; simp [forLoop]
  | succ n ih =>
    intro i s
    simp only [forLoop]
    rw [ih]
    simp [load, xil_printf, emit, cpuView, List.range'_succ]

theorem checkResult_trace (s : Machine σ) :
    (checkResult s).trace = s.trace ++ checkEvents (fun i => cpuView s (RX_BUFFER_BASE + 4 * i)) := by
  unfold checkResult
  rw [checkLoop]
  simp [xil_printf, emit, checkEvents, cpuView]

theorem pollingWait_trace (P : Platform σ) (fuel : Nat) : ∀ s : Machine σ,
    ∃ polls : List Event, (∀ e ∈ polls, e.isBusy = true) ∧
      (pollingWait P fuel s).2.trace =
        s.trace ++ polls ++ (if (pollingWait P fuel s).1 then idleEvents else []) := by
  induction fuel with
  | zero => intro s; exact ⟨[], by simp, by simp [pollingWait]⟩
  | succ fuel ih =>
    intro s
    by_cases htx : (XAxiDma_Busy P .DMA_TO_DEVICE s).1 = true
    · obtain ⟨polls, hp, ht⟩ := ih (XAxiDma_Busy P .DMA_TO_DEVICE s).2
      refine ⟨Event.Busy .DMA_TO_DEVICE true :: polls, ?_, ?_⟩
      · intro e he
        rcases List.mem_cons.mp he with rfl | he
        · rfl
        · exact hp e he
      · simp only [pollingWait, htx, if_true]
        rw [ht]
        have : (XAxiDma_Busy P .DMA_TO_DEVICE s).2.trace
            = s.trace ++ [Event.Busy .DMA_TO_DEVICE true] := by
          rw [← htx]; rfl
        rw [this]; simp
    · have htx' : (XAxiDma_Busy P .DMA_TO_DEVICE s).1 = false := by simpa using htx
      have h1 : (XAxiDma_Busy P .DMA_TO_DEVICE s).2.trace
          = s.trace ++ [Event.Busy .DMA_TO_DEVICE false] := by
        rw [← htx']; rfl
      by_cases hrx : (XAxiDma_Busy P .DEVICE_TO_DMA (XAxiDma_Busy P .DMA_TO_DEVICE s).2).1 = true
      · obtain ⟨polls, hp, ht⟩ :=
          ih (XAxiDma_Busy P .DEVICE_TO_DMA (XAxiDma_Busy P .DMA_TO_DEVICE s).2).2
        refine ⟨Event.Busy .DMA_TO_DEVICE false :: Event.Busy .DEVICE_TO_DMA true :: polls,
          ?_, ?_⟩
        · intro e he
          rcases List.mem_cons.mp he with rfl | he
          · rfl
          · rcases List.mem_cons.mp he with rfl | he
            · rfl
            · exact hp e he
        · simp only [pollingWait, htx', hrx, if_true, Bool.false_eq_true, if_false]
          rw [ht]
          have h2 : (XAxiDma_Busy P .DEVICE_TO_DMA (XAxiDma_Busy P .DMA_TO_DEVICE s).2).2.trace
              = (XAxiDma_Busy P .DMA_TO_DEVICE s).2.trace ++ [Event.Busy .DEVICE_TO_DMA true] := by
            rw [← hrx]; rfl
          rw [h2, h1]; simp
      · have hrx' : (XAxiDma_Busy P .DEVICE_TO_DMA (XAxiDma_Busy P .DMA_TO_DEVICE s).2).1
            = false := by simpa using hrx
        refine ⟨[], by simp, ?_⟩
        simp only [pollingWait, htx', hrx', Bool.false_eq_true, if_false]
        have h2 : (XAxiDma_Busy P .DEVICE_TO_DMA (XAxiDma_Busy P .DMA_TO_DEVICE s).2).2.trace
            = (XAxiDma_Busy P .DMA_TO_DEVICE s).2.trace ++ [Event.Busy .DEVICE_TO_DMA false] := by
          rw [← hrx']; rfl
        simp [h2, h1, idleEvents]

theorem transferAndCheck_run (P : Platform σ) (fuel : Nat) (s : Machine σ) (cfgPtr : Nat)
    (hcfg : cfgPtr ≠ 0) (hs : s.trace = setupEvents P cfgPtr) :
    MainRun P (transferAndCheck P fuel s).1 (transferAndCheck P fuel s).2.trace := by
  have hrxt : (XAxiDma_SimpleTransfer P RX_BUFFER_BASE (TEST_LENGTH * 4) .DEVICE_TO_DMA s).2.trace
      = setupEvents P cfgPtr ++
        [rxIssue (XAxiDma_SimpleTransfer P RX_BUFFER_BASE (TEST_LENGTH * 4) .DEVICE_TO_DMA s).1] := by
    simp [XAxiDma_SimpleTransfer, hs, rxIssue, TEST_LENGTH]
  by_cases hrx : (XAxiDma_SimpleTransfer P RX_BUFFER_BASE (TEST_LENGTH * 4) .DEVICE_TO_DMA s).1
      = XST_SUCCESS
  · have htxt : (XAxiDma_SimpleTransfer P TX_BUFFER_BASE (TEST_LENGTH * 4) .DMA_TO_DEVICE
        (XAxiDma_SimpleTransfer P RX_BUFFER_BASE (TEST_LENGTH * 4) .DEVICE_TO_DMA s).2).2.trace
        = setupEvents P cfgPtr ++ [rxIssue XST_SUCCESS,
          txIssue (XAxiDma_SimpleTransfer P TX_BUFFER_BASE (TEST_LENGTH * 4) .DMA_TO_DEVICE
            (XAxiDma_SimpleTransfer P RX_BUFFER_BASE (TEST_LENGTH * 4) .DEVICE_TO_DMA s).2).1] := by
      rw [← hrx]
      have : ∀ u : Machine σ, (XAxiDma_SimpleTransfer P TX_BUFFER_BASE (TEST_LENGTH * 4)
          .DMA_TO_DEVICE u).2.trace = u.trace ++ [txIssue (XAxiDma_SimpleTransfer P
            TX_BUFFER_BASE (TEST_LENGTH * 4) .DMA_TO_DEVICE u).1] := by
        intro u; simp [XAxiDma_SimpleTransfer, txIssue, TEST_LENGTH]
      rw [this, hrxt]; simp
    by_cases htx : (XAxiDma_SimpleTransfer P TX_BUFFER_BASE (TEST_LENGTH * 4) .DMA_TO_DEVICE
        (XAxiDma_SimpleTransfer P RX_BUFFER_BASE (TEST_LENGTH * 4) .DEVICE_TO_DMA s).2).1
        = XST_SUCCESS
    · obtain ⟨polls, hp, ht⟩ := pollingWait_trace P fuel
        (XAxiDma_SimpleTransfer P TX_BUFFER_BASE (TEST_LENGTH * 4) .DMA_TO_DEVICE
          (XAxiDma_SimpleTransfer P RX_BUFFER_BASE (TEST_LENGTH * 4) .DEVICE_TO_DMA s).2).2
      rw [htxt, htx] at ht
      by_cases hw : (pollingWait P fuel
          (XAxiDma_SimpleTransfer P TX_BUFFER_BASE (TEST_LENGTH * 4) .DMA_TO_DEVICE
            (XAxiDma_SimpleTransfer P RX_BUFFER_BASE (TEST_LENGTH * 4) .DEVICE_TO_DMA s).2).2).1
          = true
      · rw [hw, if_pos rfl] at ht
        simp only [transferAndCheck, hrx, htx, hw, ne_eq, not_true_eq_false, if_false, if_true]
        rw [checkResult_trace]
        have hinv : ∀ u : Machine σ,
            (Xil_DCacheInvalidateRange RX_BUFFER_BASE (TEST_LENGTH * 4) u).trace
              = u.trace ++ [Event.DCacheInvalidateRange RX_BUFFER_BASE 512] := by
          intro u; simp [Xil_DCacheInvalidateRange, TEST_LENGTH]
        rw [hinv, ht]
        exact MainRun.done cfgPtr polls _ hcfg hp
      · have hw' : (pollingWait P fuel
          (XAxiDma_SimpleTransfer P TX_BUFFER_BASE (TEST_LENGTH * 4) .DMA_TO_DEVICE
            (XAxiDma_SimpleTransfer P RX_BUFFER_BASE (TEST_LENGTH * 4) .DEVICE_TO_DMA s).2).2).1
          = false := by simpa using hw
        rw [hw'] at ht
        simp only [transferAndCheck, hrx, htx, hw', ne_eq, not_true_eq_false, if_false,
          Bool.false_eq_true]
        rw [ht]
        simpa using MainRun.spinning cfgPtr polls hcfg hp
    · simp only [transferAndCheck, hrx, htx, ne_eq, not_true_eq_false, not_false_eq_true,
        if_false, if_true]
      have : (xil_printf .txFailed [] (XAxiDma_SimpleTransfer P TX_BUFFER_BASE (TEST_LENGTH * 4)
          .DMA_TO_DEVICE (XAxiDma_SimpleTransfer P RX_BUFFER_BASE (TEST_LENGTH * 4)
            .DEVICE_TO_DMA s).2).2).trace = setupEvents P cfgPtr ++ [rxIssue XST_SUCCESS,
          txIssue (XAxiDma_SimpleTransfer P TX_BUFFER_BASE (TEST_LENGTH * 4) .DMA_TO_DEVICE
            (XAxiDma_SimpleTransfer P RX_BUFFER_BASE (TEST_LENGTH * 4) .DEVICE_TO_DMA s).2).1,
          .printf .txFailed []] := by
        simp [xil_printf, emit, htxt]
      rw [this]
      exact MainRun.txFailed cfgPtr _ hcfg htx
  · simp only [transferAndCheck, hrx, ne_eq, not_false_eq_true, if_true]
    have : (xil_printf .rxFailed [] (XAxiDma_SimpleTransfer P RX_BUFFER_BASE (TEST_LENGTH * 4)
        .DEVICE_TO_DMA s).2).trace = setupEvents P cfgPtr ++
        [rxIssue (XAxiDma_SimpleTransfer P RX_BUFFER_BASE (TEST_LENGTH * 4) .DEVICE_TO_DMA s).1,
         .printf .rxFailed []] := by
      simp [xil_printf, emit, hrxt]
    rw [this]
    exact MainRun.rxFailed cfgPtr _ hcfg hrx

/-- Every run of `main` from program start has one of the six shapes of
`MainRun`. -/
theorem main_run (P : Platform σ) (fuel : Nat) (ram : Nat → Nat) (cache : Nat → Option Nat)
    (dma : σ) :
    MainRun P (main P fuel (boot ram cache dma)).1 (main P fuel (boot ram cache dma)).2.trace := by
  by_cases hcfg : P.LookupConfig DMA_DEV_ID = 0
  · have : main P fuel (boot ram cache dma) =
        (some XST_FAILURE, xil_printf .cfgNotFound []
          (XAxiDma_LookupConfig P DMA_DEV_ID (xil_printf .banner []
            (Xil_DCacheEnable (Xil_ICacheEnable (boot ram cache dma))))).2) := by
      simp [main, XAxiDma_LookupConfig, hcfg]
    rw [this]
    have ht : (xil_printf .cfgNotFound []
          (XAxiDma_LookupConfig P DMA_DEV_ID (xil_printf .banner []
            (Xil_DCacheEnable (Xil_ICacheEnable (boot ram cache dma))))).2).trace
        = headerEvents ++ [.LookupConfig DMA_DEV_ID 0, .printf .cfgNotFound []] := by
      simp [xil_printf, XAxiDma_LookupConfig, Xil_DCacheEnable, Xil_ICacheEnable, emit, boot,
        headerEvents, hcfg]
    simp only [ht]
    exact MainRun.cfgNotFound
  · have hlk : (XAxiDma_LookupConfig P DMA_DEV_ID (xil_printf .banner []
        (Xil_DCacheEnable (Xil_ICacheEnable (boot ram cache dma))))).2.trace
        = headerEvents ++ [.LookupConfig DMA_DEV_ID (P.LookupConfig DMA_DEV_ID)] := by
      simp [xil_printf, XAxiDma_LookupConfig, Xil_DCacheEnable, Xil_ICacheEnable, emit, boot,
        headerEvents]
    have hini : ∀ u : Machine σ, (XAxiDma_CfgInitialize P (P.LookupConfig DMA_DEV_ID) u).2.trace
        = u.trace ++ [.CfgInitialize (P.LookupConfig DMA_DEV_ID)
            (XAxiDma_CfgInitialize P (P.LookupConfig DMA_DEV_ID) u).1] := by
      intro u; simp [XAxiDma_CfgInitialize]
    by_cases hst : (XAxiDma_CfgInitialize P (P.LookupConfig DMA_DEV_ID)
        (XAxiDma_LookupConfig P DMA_DEV_ID (xil_printf .banner []
          (Xil_DCacheEnable (Xil_ICacheEnable (boot ram cache dma))))).2).1 = XST_SUCCESS
    · have hm : main P fuel (boot ram cache dma) = transferAndCheck P fuel
          (setupFilter P (flushBuffers P (prepareBuffers
            (XAxiDma_IntrDisable P XAXIDMA_IRQ_ALL_MASK .DMA_TO_DEVICE
              (XAxiDma_IntrDisable P XAXIDMA_IRQ_ALL_MASK .DEVICE_TO_DMA
                (XAxiDma_CfgInitialize P (P.LookupConfig DMA_DEV_ID)
                  (XAxiDma_LookupConfig P DMA_DEV_ID (xil_printf .banner []
                    (Xil_DCacheEnable (Xil_ICacheEnable (boot ram cache dma))))).2).2))))) := by
        have h0 : (XAxiDma_LookupConfig P DMA_DEV_ID (xil_printf .banner []
            (Xil_DCacheEnable (Xil_ICacheEnable (boot ram cache dma))))).1
            = P.LookupConfig DMA_DEV_ID := rfl
        simp only [main, h0, hcfg, hst, ne_eq, not_true_eq_false, if_false]
      rw [hm]
      apply transferAndCheck_run P fuel _ (P.LookupConfig DMA_DEV_ID) hcfg
      rw [setupFilter_trace, flushBuffers_trace, prepareBuffers_trace]
      have hid : ∀ (m : Nat) (d : Direction) (u : Machine σ),
          (XAxiDma_IntrDisable P m d u).trace = u.trace ++ [.IntrDisable m d] := by
        intro m d u; rfl
      rw [hid, hid, hini, hlk, hst]
      simp [setupEvents]
    · have hm : main P fuel (boot ram cache dma) = (some XST_FAILURE,
          xil_printf .initFailed [] (XAxiDma_CfgInitialize P (P.LookupConfig DMA_DEV_ID)
            (XAxiDma_LookupConfig P DMA_DEV_ID (xil_printf .banner []
              (Xil_DCacheEnable (Xil_ICacheEnable (boot ram cache dma))))).2).2) := by
        have h0 : (XAxiDma_LookupConfig P DMA_DEV_ID (xil_printf .banner []
            (Xil_DCacheEnable (Xil_ICacheEnable (boot ram cache dma))))).1
            = P.LookupConfig DMA_DEV_ID := rfl
        simp only [main, h0, hcfg, hst, ne_eq, not_false_eq_true, if_true, if_false]
      rw [hm]
      have ht : (xil_printf .initFailed [] (XAxiDma_CfgInitialize P (P.LookupConfig DMA_DEV_ID)
            (XAxiDma_LookupConfig P DMA_DEV_ID (xil_printf .banner []
              (Xil_DCacheEnable (Xil_ICacheEnable (boot ram cache dma))))).2).2).trace
          = headerEvents ++ [.LookupConfig DMA_DEV_ID (P.LookupConfig DMA_DEV_ID),
              .CfgInitialize (P.LookupConfig DMA_DEV_ID)
                (XAxiDma_CfgInitialize P (P.LookupConfig DMA_DEV_ID)
                  (XAxiDma_LookupConfig P DMA_DEV_ID (xil_printf .banner []
                    (Xil_DCacheEnable (Xil_ICacheEnable (boot ram cache dma))))).2).1,
              .printf .initFailed []] := by
        have : ∀ u : Machine σ, (xil_printf .initFailed [] u).trace
            = u.trace ++ [.printf .initFailed []] := fun u => rfl
        rw [this, hini, hlk]; simp
      simp only [ht]
      exact MainRun.initFailed _ _ hcfg hst

/-- The run of `main` when the lookup finds no descriptor. -/
theorem main_cfg_not_found (P : Platform σ) (fuel : Nat) (ram : Nat → Nat)
    (cache : Nat → Option Nat) (dma : σ) (hcfg : P.LookupConfig DMA_DEV_ID = 0) :
    main P fuel (boot ram cache dma) =
      (some XST_FAILURE,
        { ram := ram, cache := cache, dma := dma,
          trace := [.ICacheEnable, .DCacheEnable, .printf .banner [],
            .LookupConfig DMA_DEV_ID 0, .printf .cfgNotFound []] }) := by
  simp [main, XAxiDma_LookupConfig, hcfg, xil_printf, Xil_DCacheEnable, Xil_ICacheEnable,
    emit, boot]

/-- Once the polling loop has been left, more fuel changes nothing. -/
theorem pollingWait_mono (P : Platform σ) (fuel : Nat) : ∀ (s : Machine σ),
    (pollingWait P fuel s).1 = true →
    pollingWait P (fuel + 1) s = pollingWait P fuel s := by
  induction fuel with
  | zero => intro s h; simp [pollingWait] at h
  | succ fuel ih =>
    intro s h
    have step : ∀ (f : Nat) (u : Machine σ), pollingWait P (f + 1) u =
        if (XAxiDma_Busy P .DMA_TO_DEVICE u).1 = true then
          pollingWait P f (XAxiDma_Busy P .DMA_TO_DEVICE u).2
        else if (XAxiDma_Busy P .DEVICE_TO_DMA (XAxiDma_Busy P .DMA_TO_DEVICE u).2).1 = true then
          pollingWait P f (XAxiDma_Busy P .DEVICE_TO_DMA (XAxiDma_Busy P .DMA_TO_DEVICE u).2).2
        else (true, (XAxiDma_Busy P .DEVICE_TO_DMA (XAxiDma_Busy P .DMA_TO_DEVICE u).2).2) :=
      fun _ _ => rfl
    rw [step fuel s] at h
    rw [step (fuel + 1) s, step fuel s]
    by_cases htx : (XAxiDma_Busy P .DMA_TO_DEVICE s).1 = true
    · rw [if_pos htx] at h ⊢
      rw [if_pos htx]
      exact ih _ h
    · rw [if_neg htx] at h ⊢
      rw [if_neg htx]
      by_cases hrx : (XAxiDma_Busy P .DEVICE_TO_DMA (XAxiDma_Busy P .DMA_TO_DEVICE s).2).1 = true
      · rw [if_pos hrx] at h ⊢
        rw [if_pos hrx]
        exact ih _ h
      · rw [if_neg hrx, if_neg hrx]

theorem transferAndCheck_mono (P : Platform σ) (fuel : Nat) (s : Machine σ) (r : Int)
    (final : Machine σ) (h : transferAndCheck P fuel s = (some r, final)) :
    transferAndCheck P (fuel + 1) s = (some r, final) := by
  unfold transferAndCheck at h ⊢
  by_cases hrx : (XAxiDma_SimpleTransfer P RX_BUFFER_BASE (TEST_LENGTH * 4) .DEVICE_TO_DMA s).1
      = XST_SUCCESS
  · simp only [hrx, ne_eq, not_true_eq_false, if_false] at h ⊢
    by_cases htx : (XAxiDma_SimpleTransfer P TX_BUFFER_BASE (TEST_LENGTH * 4) .DMA_TO_DEVICE
        (XAxiDma_SimpleTransfer P RX_BUFFER_BASE (TEST_LENGTH * 4) .DEVICE_TO_DMA s).2).1
        = XST_SUCCESS
    · simp only [htx, not_true_eq_false, if_false] at h ⊢
      by_cases hw : (pollingWait P fuel
          (XAxiDma_SimpleTransfer P TX_BUFFER_BASE (TEST_LENGTH * 4) .DMA_TO_DEVICE
            (XAxiDma_SimpleTransfer P RX_BUFFER_BASE (TEST_LENGTH * 4) .DEVICE_TO_DMA s).2).2).1
          = true
      · rw [pollingWait_mono P fuel _ hw]
        exact h
      · simp only [hw, if_false] at h
        exact absurd (congrArg Prod.fst h) (by simp)
    · simp only [htx, not_false_eq_true, if_true] at h ⊢
      exact h
  · simp only [hrx, ne_eq, not_false_eq_true, if_true] at h ⊢
    exact h

/-- A run of `main` that has returned returns the same with more fuel. -/
theorem main_mono (P : Platform σ) (fuel : Nat) (s : Machine σ) (r : Int)
    (final : Machine σ) (h : main P fuel s = (some r, final)) (k : Nat) :
    main P (fuel + k) s = (some r, final) := by
  induction k with
  | zero => exact h
  | succ k ih =>
    unfold main at ih ⊢
    by_cases hcfg : (XAxiDma_LookupConfig P DMA_DEV_ID (xil_printf .banner []
        (Xil_DCacheEnable (Xil_ICacheEnable s)))).1 = 0
    · simp only [hcfg, if_true] at ih ⊢
      exact ih
    · simp only [hcfg, if_false] at ih ⊢
      by_cases hst : (XAxiDma_CfgInitialize P (XAxiDma_LookupConfig P DMA_DEV_ID
          (xil_printf .banner [] (Xil_DCacheEnable (Xil_ICacheEnable s)))).1
          (XAxiDma_LookupConfig P DMA_DEV_ID (xil_printf .banner []
            (Xil_DCacheEnable (Xil_ICacheEnable s)))).2).1 = XST_SUCCESS
      · simp only [hst, ne_eq, not_true_eq_false, if_false] at ih ⊢
        exact transferAndCheck_mono P (fuel + k) _ r final ih
      · simp only [hst, ne_eq, not_false_eq_true, if_true] at ih ⊢
        exact ih

/-! ## Positions in a trace -/

theorem no_split_of_forall_false (q : Event → Bool) (tr l1 l2 : List Event) (e : Event)
    (hall : ∀ y ∈ tr, q y = false) (h : tr = l1 ++ e :: l2) (he : q e = true) : False := by
  have : q e = false := hall e (by rw [h]; simp)
  rw [this] at he
  exact Bool.noConfusion he

theorem mem_left_of_split (q : Event → Bool) (A B l1 l2 : List Event) (x e : Event)
    (hA : ∀ y ∈ A, q y = false) (hx : q x = false) (he : q e = true)
    (h : A ++ x :: B = l1 ++ e :: l2) : ∃ m, l1 = A ++ x :: m ∧ B = m ++ e :: l2 := by
  rcases List.append_eq_append_iff.mp h with ⟨a, h1, h2⟩ | ⟨c, h1, h2⟩
  · cases a with
    | nil =>
      simp only [List.nil_append, List.cons.injEq] at h2
      rw [h2.1, he] at hx
      exact Bool.noConfusion hx
    | cons a0 a =>
      simp only [List.cons_append, List.cons.injEq] at h2
      exact ⟨a, by rw [h1, h2.1], h2.2⟩
  · cases c with
    | nil =>
      simp only [List.nil_append, List.cons.injEq] at h2
      rw [← h2.1, he] at hx
      exact Bool.noConfusion hx
    | cons c0 c =>
      simp only [List.cons_append, List.cons.injEq] at h2
      have : q e = false := hA e (by rw [h1, ← h2.1]; simp)
      rw [this] at he
      exact Bool.noConfusion he

theorem unique_split (q : Event → Bool) (A B l1 l2 : List Event) (x e : Event)
    (hA : ∀ y ∈ A, q y = false) (hB : ∀ y ∈ B, q y = false) (he : q e = true)
    (h : A ++ x :: B = l1 ++ e :: l2) : l1 = A ∧ e = x ∧ l2 = B := by
  rcases List.append_eq_append_iff.mp h with ⟨a, h1, h2⟩ | ⟨c, h1, h2⟩
  · cases a with
    | nil =>
      simp only [List.nil_append, List.cons.injEq] at h2
      exact ⟨by simpa using h1, h2.1.symm, h2.2.symm⟩
    | cons a0 a =>
      simp only [List.cons_append, List.cons.injEq] at h2
      have : q e = false := hB e (by rw [h2.2]; simp)
      rw [this] at he
      exact Bool.noConfusion he
  · cases c with
    | nil =>
      simp only [List.nil_append, List.cons.injEq] at h2
      exact ⟨by simpa using h1.symm, h2.1, h2.2⟩
    | cons c0 c =>
      simp only [List.cons_append, List.cons.injEq] at h2
      have : q e = false := hA e (by rw [h1, ← h2.1]; simp)
      rw [this] at he
      exact Bool.noConfusion he

/-! ## Classification of the events of a run -/

theorem mem_setupEvents (P : Platform σ) (cfgPtr : Nat) (y : Event) (hy : y ∈ setupEvents P cfgPtr) :
    y ∈ headerEvents ∨ y = .LookupConfig DMA_DEV_ID cfgPtr ∨
    y = .CfgInitialize cfgPtr XST_SUCCESS ∨
    y = .IntrDisable XAXIDMA_IRQ_ALL_MASK .DEVICE_TO_DMA ∨
    y = .IntrDisable XAXIDMA_IRQ_ALL_MASK .DMA_TO_DEVICE ∨
    y ∈ prepareEvents ∨ y ∈ flushEvents ∨ y ∈ filterEvents P := by
  simp only [setupEvents, List.mem_append, List.mem_cons, List.mem_singleton] at hy
  tauto

theorem mem_prepareEvents (y : Event) (hy : y ∈ prepareEvents) :
    y = .memset RX_BUFFER_BASE 0 512 ∨ ∃ i v, i < 128 ∧ y = .store (TX_BUFFER_BASE + 4 * i) v := by
  simp only [prepareEvents, List.mem_cons, List.mem_map, List.mem_range'] at hy
  rcases hy with rfl | rfl | ⟨i, ⟨k, hk, rfl⟩, rfl⟩
  · exact Or.inl rfl
  · exact Or.inr ⟨0, _, by norm_num, rfl⟩
  · exact Or.inr ⟨1 + 1 * k, _, by omega, rfl⟩

theorem mem_checkEvents (word : Nat → Nat) (y : Event) (hy : y ∈ checkEvents word) :
    (∃ m a, y = .printf m a) ∨ ∃ i v, i < 10 ∧ y = .load (RX_BUFFER_BASE + 4 * i) v := by
  simp only [checkEvents, List.mem_cons, List.mem_flatMap, List.mem_range'] at hy
  rcases hy with rfl | ⟨i, ⟨k, hk, rfl⟩, h⟩
  · exact Or.inl ⟨_, _, rfl⟩
  · simp only [List.mem_cons, List.mem_singleton, List.not_mem_nil, or_false] at h
    rcases h with rfl | rfl | rfl
    · exact Or.inr ⟨0 + 1 * k, _, by omega, rfl⟩
    · exact Or.inr ⟨0 + 1 * k, _, by omega, rfl⟩
    · exact Or.inl ⟨_, _, rfl⟩

theorem setupEvents_quiet (P : Platform σ) (cfgPtr : Nat) (hcfg : cfgPtr ≠ 0) (y : Event)
    (hy : y ∈ setupEvents P cfgPtr) :
    y.isTransfer = false ∧ y.isFailure = false ∧ y.isBusy = false ∧
    y.readsRange RX_BUFFER_BASE 512 = false ∧
    y.isTransferTo .DMA_TO_DEVICE = false ∧ y.isTransferTo .DEVICE_TO_DMA = false := by
  rcases mem_setupEvents P cfgPtr y hy with h | rfl | rfl | rfl | rfl | h | h | h
  · simp only [headerEvents, List.mem_cons, List.mem_singleton, List.not_mem_nil, or_false] at h
    rcases h with rfl | rfl | rfl <;> exact ⟨rfl, rfl, rfl, rfl, rfl, rfl⟩
  · exact ⟨rfl, by simp [Event.isFailure, hcfg], rfl, rfl, rfl, rfl⟩
  · exact ⟨rfl, by simp [Event.isFailure], rfl, rfl, rfl, rfl⟩
  · exact ⟨rfl, rfl, rfl, rfl, rfl, rfl⟩
  · exact ⟨rfl, rfl, rfl, rfl, rfl, rfl⟩
  · rcases mem_prepareEvents y h with rfl | ⟨i, v, _, rfl⟩ <;> exact ⟨rfl, rfl, rfl, rfl, rfl, rfl⟩
  · simp only [flushEvents, List.mem_cons, List.mem_singleton, List.not_mem_nil, or_false] at h
    rcases h with rfl | rfl <;> exact ⟨rfl, rfl, rfl, rfl, rfl, rfl⟩
  · simp only [filterEvents, List.mem_cons, List.mem_singleton, List.not_mem_nil, or_false] at h
    rcases h with rfl | rfl | rfl | rfl | rfl | rfl | rfl <;> exact ⟨rfl, rfl, rfl, rfl, rfl, rfl⟩

theorem busy_quiet (y : Event) (hy : y.isBusy = true) :
    y.isTransfer = false ∧ y.isFailure = false ∧ y.isPrintf = false ∧
    y.isLookup = false ∧ y.isCfgInitialize = false ∧
    y.isTransferTo .DMA_TO_DEVICE = false ∧ y.isTransferTo .DEVICE_TO_DMA = false ∧
    y.readsRange RX_BUFFER_BASE 512 = false ∧
    y.writesRange RX_BUFFER_BASE 512 = false ∧ y.writesRange TX_BUFFER_BASE 512 = false := by
  cases y <;> first | exact Bool.noConfusion hy | exact ⟨rfl, rfl, rfl, rfl, rfl, rfl, rfl, rfl, rfl, rfl⟩

theorem checkEvents_quiet (word : Nat → Nat) (y : Event) (hy : y ∈ checkEvents word) :
    y.isTransfer = false ∧ y.isFailure = false ∧ y.isBusy = false ∧
    y.isLookup = false ∧ y.isCfgInitialize = false ∧
    y.isTransferTo .DMA_TO_DEVICE = false ∧ y.isTransferTo .DEVICE_TO_DMA = false ∧
    y.writesRange RX_BUFFER_BASE 512 = false ∧ y.writesRange TX_BUFFER_BASE 512 = false := by
  rcases mem_checkEvents word y hy with ⟨m, a, rfl⟩ | ⟨i, v, _, rfl⟩ <;>
    exact ⟨rfl, rfl, rfl, rfl, rfl, rfl, rfl, rfl, rfl⟩

theorem header_quiet (y : Event) (hy : y ∈ headerEvents) :
    y.isTransfer = false ∧ y.isFailure = false ∧ y.isBusy = false ∧
    y.isTransferTo .DMA_TO_DEVICE = false ∧ y.isTransferTo .DEVICE_TO_DMA = false := by
  simp only [headerEvents, List.mem_cons, List.mem_singleton, List.not_mem_nil, or_false] at hy
  rcases hy with rfl | rfl | rfl <;> exact ⟨rfl, rfl, rfl, rfl, rfl⟩

theorem tail_quiet (polls : List Event) (word : Nat → Nat)
    (hp : ∀ e ∈ polls, e.isBusy = true) (y : Event)
    (hy : y ∈ polls ++ idleEvents ++ [.DCacheInvalidateRange RX_BUFFER_BASE 512] ++
      checkEvents word) :
    y.isTransfer = false ∧ y.isFailure = false ∧
    y.isLookup = false ∧ y.isCfgInitialize = false ∧
    y.isTransferTo .DMA_TO_DEVICE = false ∧ y.isTransferTo .DEVICE_TO_DMA = false ∧
    y.writesRange RX_BUFFER_BASE 512 = false ∧ y.writesRange TX_BUFFER_BASE 512 = false := by
  simp only [List.mem_append, List.mem_singleton] at hy
  rcases hy with ((hy | hy) | rfl) | hy
  · have h := busy_quiet y (hp y hy)
    exact ⟨h.1, h.2.1, h.2.2.2.1, h.2.2.2.2.1, h.2.2.2.2.2.1, h.2.2.2.2.2.2.1,
      h.2.2.2.2.2.2.2.2.1, h.2.2.2.2.2.2.2.2.2⟩
  · simp only [idleEvents, List.mem_cons, List.mem_singleton, List.not_mem_nil, or_false] at hy
    rcases hy with rfl | rfl <;> exact ⟨rfl, rfl, rfl, rfl, rfl, rfl, rfl, rfl⟩
  · exact ⟨rfl, rfl, rfl, rfl, rfl, rfl, rfl, rfl⟩
  · have h := checkEvents_quiet word y hy
    exact ⟨h.1, h.2.1, h.2.2.2.1, h.2.2.2.2.1, h.2.2.2.2.2.1, h.2.2.2.2.2.2.1,
      h.2.2.2.2.2.2.2.1, h.2.2.2.2.2.2.2.2⟩

/-- In a run of `main`, either no transmit transfer is issued at all, or the
trace is the setup events, the accepted receive issue, the transmit issue, and
a rest without any transfer issue. -/
theorem MainRun.tx_cases {P : Platform σ} {st : Option Int} {tr : List Event}
    (h : MainRun P st tr) :
    (∀ y ∈ tr, y.isTransferTo .DMA_TO_DEVICE = false) ∨
    ∃ cfgPtr status B, cfgPtr ≠ 0 ∧
      tr = (setupEvents P cfgPtr ++ [rxIssue XST_SUCCESS]) ++ txIssue status :: B ∧
      ∀ y ∈ B, y.isTransfer = false := by
  cases h with
  | cfgNotFound =>
    left
    intro y hy
    rcases List.mem_append.mp hy with hy | hy
    · exact (header_quiet y hy).2.2.2.1
    · simp only [List.mem_cons, List.mem_singleton, List.not_mem_nil, or_false] at hy
      rcases hy with rfl | rfl <;> rfl
  | initFailed cfgPtr status h1 h2 =>
    left
    intro y hy
    rcases List.mem_append.mp hy with hy | hy
    · exact (header_quiet y hy).2.2.2.1
    · simp only [List.mem_cons, List.mem_singleton, List.not_mem_nil, or_false] at hy
      rcases hy with rfl | rfl | rfl <;> rfl
  | rxFailed cfgPtr status h1 h2 =>
    left
    intro y hy
    rcases List.mem_append.mp hy with hy | hy
    · exact (setupEvents_quiet P cfgPtr h1 y hy).2.2.2.2.1
    · simp only [List.mem_cons, List.mem_singleton, List.not_mem_nil, or_false] at hy
      rcases hy with rfl | rfl <;> rfl
  | txFailed cfgPtr status h1 h2 =>
    refine Or.inr ⟨cfgPtr, status, [.printf .txFailed []], h1, by simp, ?_⟩
    intro y hy
    simp only [List.mem_singleton] at hy
    subst hy; rfl
  | spinning cfgPtr polls h1 h2 =>
    exact Or.inr ⟨cfgPtr, XST_SUCCESS, polls, h1, by simp, fun y hy => (busy_quiet y (h2 y hy)).1⟩
  | done cfgPtr polls word h1 h2 =>
    exact Or.inr ⟨cfgPtr, XST_SUCCESS,
      polls ++ idleEvents ++ [.DCacheInvalidateRange RX_BUFFER_BASE 512] ++ checkEvents word,
      h1, by simp, fun y hy => (tail_quiet polls word h2 y hy).1⟩

theorem isTransferTo_false_of_isTransfer (d : Direction) (y : Event)
    (h : y.isTransfer = false) : y.isTransferTo d = false := by
  cases y <;> first | rfl | exact Bool.noConfusion h

/-- C5: in every trace of `main`, whatever the DMA engine does, a
transmit-direction transfer issue is preceded by the receive-direction issue,
and that issue was accepted: the transmit transfer is never issued first, and
never issued unless the receive transfer was issued and accepted. -/
theorem rx_issue_precedes_tx_issue (P : Platform σ) (fuel : Nat) (ram : Nat → Nat)
    (cache : Nat → Option Nat) (dma : σ) (l1 l2 : List Event) (addr len : Nat) (status : Int)
    (hsplit : (main P fuel (boot ram cache dma)).2.trace =
      l1 ++ .SimpleTransfer addr len .DMA_TO_DEVICE status :: l2) :
    (∃ l0, l1 = l0 ++ [.SimpleTransfer RX_BUFFER_BASE 512 .DEVICE_TO_DMA XST_SUCCESS] ∧
      ∀ y ∈ l0, y.isTransfer = false) ∧
    (∀ y ∈ l2, y.isTransfer = false) := by
  rcases (main_run P fuel ram cache dma).tx_cases with hno | ⟨cfgPtr, st, B, hcfg, htr, hB⟩
  · exact (no_split_of_forall_false _ _ l1 l2 _ hno hsplit rfl).elim
  · rw [htr] at hsplit
    have hA : ∀ y ∈ setupEvents P cfgPtr ++ [rxIssue XST_SUCCESS],
        y.isTransferTo .DMA_TO_DEVICE = false := by
      intro y hy
      rcases List.mem_append.mp hy with hy | hy
      · exact (setupEvents_quiet P cfgPtr hcfg y hy).2.2.2.2.1
      · simp only [List.mem_singleton] at hy
        subst hy; rfl
    obtain ⟨h1, _, h2⟩ := unique_split (Event.isTransferTo .DMA_TO_DEVICE) _ B l1 l2
      (txIssue st) (.SimpleTransfer addr len .DMA_TO_DEVICE status) hA
      (fun y hy => isTransferTo_false_of_isTransfer _ y (hB y hy)) rfl hsplit
    subst h1 h2
    exact ⟨⟨setupEvents P cfgPtr, rfl, fun y hy => (setupEvents_quiet P cfgPtr hcfg y hy).1⟩, hB⟩

/-! ## Memory and cache through the stages of `main` -/

theorem prepareBuffers_cache (s : Machine σ) (i : Nat) (hi : i < 128) :
    (prepareBuffers s).cache (TX_BUFFER_BASE + 4 * i) = some (impulseWord i) ∧
    (prepareBuffers s).cache (RX_BUFFER_BASE + 4 * i) = some 0 := by
  unfold prepareBuffers
  obtain ⟨_, _, _, hin, hout⟩ := forLoop_store TX_BUFFER_BASE 0 (TEST_LENGTH - 1) 1
    (store (TX_BUFFER_BASE + 4 * 0) (packFrame 10000 10000)
      (memset RX_BUFFER_BASE 0 (TEST_LENGTH * 4) s))
  have hp : packFrame 10000 10000 = 0x27102710 := by decide
  constructor
  · by_cases h0 : i = 0
    · subst h0
      simp only []
      rw [hout _ (by intro j hj1 hj2; omega)]
      simp [store, impulseWord, hp]
    · simp only []
      rw [hin i (by omega) (by simp only [TEST_LENGTH]; omega)]
      simp [impulseWord, h0]
  · simp only []
    rw [hout _ (by
      intro j hj1 hj2
      simp only [RX_BUFFER_BASE, TX_BUFFER_BASE, MEM_BASE_ADDR, TEST_LENGTH] at *
      omega)]
    have hne : ¬ RX_BUFFER_BASE + 4 * i = TX_BUFFER_BASE := by
      simp only [RX_BUFFER_BASE, TX_BUFFER_BASE, MEM_BASE_ADDR]; omega
    have hin' : RX_BUFFER_BASE ≤ RX_BUFFER_BASE + 4 * i ∧
        RX_BUFFER_BASE + 4 * i < RX_BUFFER_BASE + TEST_LENGTH * 4 := by
      simp only [TEST_LENGTH]; omega
    simp [store, memset, hne, hin']

theorem prepareBuffers_view (s : Machine σ) (i : Nat) (hi : i < 128) :
    cpuView (prepareBuffers s) (TX_BUFFER_BASE + 4 * i) = impulseWord i ∧
    cpuView (prepareBuffers s) (RX_BUFFER_BASE + 4 * i) = 0 := by
  obtain ⟨h1, h2⟩ := prepareBuffers_cache s i hi
  simp [cpuView, h1, h2]

theorem flush_view (P : Platform σ) (addr len : Nat) (s : Machine σ) (x : Nat) :
    cpuView (Xil_DCacheFlushRange P addr len s) x = cpuView s x := by
  unfold Xil_DCacheFlushRange cpuView
  by_cases hx : addr ≤ x ∧ x < addr + len
  · by_cases hr : P.flushRetains = false
    · simp [hx, hr]
    · simp only [hx, hr, and_false, and_self, if_true, if_false]
      cases s.cache x <;> simp
  · have : ¬ (addr ≤ x ∧ x < addr + len ∧ P.flushRetains = false) := fun h => hx ⟨h.1, h.2.1⟩
    simp [hx, this]

theorem flush_ram (P : Platform σ) (addr len : Nat) (s : Machine σ) (x : Nat) :
    (Xil_DCacheFlushRange P addr len s).ram x =
      if addr ≤ x ∧ x < addr + len then cpuView s x else s.ram x := rfl

theorem flushBuffers_view (P : Platform σ) (s : Machine σ) (x : Nat) :
    cpuView (flushBuffers P s) x = cpuView s x := by
  unfold flushBuffers
  rw [flush_view, flush_view]

theorem flushBuffers_ram (P : Platform σ) (s : Machine σ) (i : Nat) (hi : i < 128) :
    (flushBuffers P s).ram (TX_BUFFER_BASE + 4 * i) = cpuView s (TX_BUFFER_BASE + 4 * i) ∧
    (flushBuffers P s).ram (RX_BUFFER_BASE + 4 * i) = cpuView s (RX_BUFFER_BASE + 4 * i) := by
  unfold flushBuffers
  constructor
  · rw [flush_ram, if_neg (by
      simp only [RX_BUFFER_BASE, TX_BUFFER_BASE, MEM_BASE_ADDR, TEST_LENGTH]; omega),
      flush_ram, if_pos (by simp only [TEST_LENGTH]; omega)]
  · rw [flush_ram, if_pos (by simp only [TEST_LENGTH]; omega), flush_view]

theorem flushBuffers_dma (P : Platform σ) (s : Machine σ) : (flushBuffers P s).dma = s.dma := rfl

theorem setupFilter_view (P : Platform σ) (s : Machine σ) (x : Nat) :
    cpuView (setupFilter P s) x = cpuView s x := rfl

/-! ## The run with the loop-back engine -/

theorem transferAndCheck_loopback (cfgPtr : Nat) (retains : Bool) (fuel : Nat)
    (s : Machine Loopback) (hd : s.dma = ⟨none, none⟩) :
    transferAndCheck (loopback cfgPtr retains) (fuel + 1) s =
      (some 0, checkResult (Xil_DCacheInvalidateRange RX_BUFFER_BASE (TEST_LENGTH * 4)
        { ram := fun x =>
            if RX_BUFFER_BASE ≤ x ∧ x < RX_BUFFER_BASE + 512 then
              s.ram (TX_BUFFER_BASE + (x - RX_BUFFER_BASE))
            else s.ram x
          cache := s.cache
          dma := ⟨none, none⟩
          trace := s.trace ++ [rxIssue XST_SUCCESS, txIssue XST_SUCCESS] ++ idleEvents })) := by
  simp [transferAndCheck, XAxiDma_SimpleTransfer, loopback, Loopback.move, hd, pollingWait,
    XAxiDma_Busy, rxIssue, txIssue, idleEvents, TEST_LENGTH, XST_SUCCESS]

theorem forLoop_invariant {S : Type} (body : Nat → S → S) (Q : S → Prop)
    (hbody : ∀ i s, Q s → Q (body i s)) (n : Nat) :
    ∀ (i : Nat) (s : S), Q s → Q (forLoop body i n s) := by
  induction n with
  | zero => intro i s h; exact h
  | succ n ih => intro i s h; exact ih (i + 1) (body i s) (hbody i s h)

theorem checkResult_state (s : Machine σ) :
    (checkResult s).ram = s.ram ∧ (checkResult s).cache = s.cache ∧
    (checkResult s).dma = s.dma := by
  unfold checkResult
  apply forLoop_invariant _ (fun u : Machine σ => u.ram = s.ram ∧ u.cache = s.cache ∧ u.dma = s.dma)
  · intro i u h
    exact ⟨h.1, h.2.1, h.2.2⟩
  · exact ⟨rfl, rfl, rfl⟩

theorem checkResult_view (s : Machine σ) (x : Nat) :
    cpuView (checkResult s) x = cpuView s x := by
  obtain ⟨h1, h2, _⟩ := checkResult_state s
  simp [cpuView, h1, h2]

theorem checkEvents_congr (w1 w2 : Nat → Nat) (h : ∀ i, i < 10 → w1 i = w2 i) :
    checkEvents w1 = checkEvents w2 := by
  have hr : List.range' 0 10 = [0, 1, 2, 3, 4, 5, 6, 7, 8, 9] := by decide
  simp only [checkEvents, hr, List.flatMap_cons, List.flatMap_nil]
  rw [h 0 (by norm_num), h 1 (by norm_num), h 2 (by norm_num), h 3 (by norm_num),
    h 4 (by norm_num), h 5 (by norm_num), h 6 (by norm_num), h 7 (by norm_num),
    h 8 (by norm_num), h 9 (by norm_num)]

/-- When the engine is found and initialised, `main` reaches the transfer
section in the state left by buffer preparation, flush and filter setup. -/
theorem main_of_init_ok (P : Platform σ) (fuel : Nat) (ram : Nat → Nat)
    (cache : Nat → Option Nat) (dma : σ) (hcfg : P.LookupConfig DMA_DEV_ID ≠ 0)
    (hst : (P.CfgInitialize dma (P.LookupConfig DMA_DEV_ID)).1 = XST_SUCCESS) :
    ∃ sA : Machine σ, sA.ram = ram ∧ sA.cache = cache ∧
      sA.dma = P.IntrDisable (P.IntrDisable (P.CfgInitialize dma (P.LookupConfig DMA_DEV_ID)).2
        XAXIDMA_IRQ_ALL_MASK .DEVICE_TO_DMA) XAXIDMA_IRQ_ALL_MASK .DMA_TO_DEVICE ∧
      sA.trace = headerEvents ++
        [.LookupConfig DMA_DEV_ID (P.LookupConfig DMA_DEV_ID),
         .CfgInitialize (P.LookupConfig DMA_DEV_ID) XST_SUCCESS,
         .IntrDisable XAXIDMA_IRQ_ALL_MASK .DEVICE_TO_DMA,
         .IntrDisable XAXIDMA_IRQ_ALL_MASK .DMA_TO_DEVICE] ∧
      main P fuel (boot ram cache dma) =
        transferAndCheck P fuel (setupFilter P (flushBuffers P (prepareBuffers sA))) := by
  refine ⟨XAxiDma_IntrDisable P XAXIDMA_IRQ_ALL_MASK .DMA_TO_DEVICE
    (XAxiDma_IntrDisable P XAXIDMA_IRQ_ALL_MASK .DEVICE_TO_DMA
      (XAxiDma_CfgInitialize P (P.LookupConfig DMA_DEV_ID)
        (XAxiDma_LookupConfig P DMA_DEV_ID (xil_printf .banner []
          (Xil_DCacheEnable (Xil_ICacheEnable (boot ram cache dma))))).2).2), rfl, rfl, rfl, ?_, ?_⟩
  · simp [XAxiDma_IntrDisable, XAxiDma_CfgInitialize, XAxiDma_LookupConfig, xil_printf,
      Xil_DCacheEnable, Xil_ICacheEnable, emit, boot, headerEvents, hst]
  · have h0 : (XAxiDma_LookupConfig P DMA_DEV_ID (xil_printf .banner []
        (Xil_DCacheEnable (Xil_ICacheEnable (boot ram cache dma))))).1
        = P.LookupConfig DMA_DEV_ID := rfl
    have h1 : (XAxiDma_CfgInitialize P (P.LookupConfig DMA_DEV_ID)
        (XAxiDma_LookupConfig P DMA_DEV_ID (xil_printf .banner []
          (Xil_DCacheEnable (Xil_ICacheEnable (boot ram cache dma))))).2).1 = XST_SUCCESS := hst
    simp only [main, h0, hcfg, h1, ne_eq, not_true_eq_false, if_false]

/-- The transfer section with the loop-back engine, from any state in which
no channel holds a request. -/
theorem transferAndCheck_loopback_spec (cfgPtr : Nat) (retains : Bool) (fuel : Nat)
    (s : Machine Loopback) (hd : s.dma = ⟨none, none⟩) :
    ∃ final : Machine Loopback,
      transferAndCheck (loopback cfgPtr retains) (fuel + 1) s = (some 0, final) ∧
      final.trace = s.trace ++ [rxIssue XST_SUCCESS, txIssue XST_SUCCESS] ++ idleEvents ++
        [.DCacheInvalidateRange RX_BUFFER_BASE 512] ++
        checkEvents (fun i => s.ram (TX_BUFFER_BASE + 4 * i)) ∧
      ∀ i, i < 128 →
        cpuView final (RX_BUFFER_BASE + 4 * i) = s.ram (TX_BUFFER_BASE + 4 * i) ∧
        cpuView final (TX_BUFFER_BASE + 4 * i) = cpuView s (TX_BUFFER_BASE + 4 * i) := by
  have hview : ∀ i, i < 128 →
      cpuView (Xil_DCacheInvalidateRange RX_BUFFER_BASE (TEST_LENGTH * 4)
        { ram := fun x =>
            if RX_BUFFER_BASE ≤ x ∧ x < RX_BUFFER_BASE + 512 then
              s.ram (TX_BUFFER_BASE + (x - RX_BUFFER_BASE))
            else s.ram x
          cache := s.cache
          dma := (⟨none, none⟩ : Loopback)
          trace := s.trace ++ [rxIssue XST_SUCCESS, txIssue XST_SUCCESS] ++ idleEvents })
        (RX_BUFFER_BASE + 4 * i) = s.ram (TX_BUFFER_BASE + 4 * i) := by
    intro i hi
    have hin : RX_BUFFER_BASE ≤ RX_BUFFER_BASE + 4 * i ∧
        RX_BUFFER_BASE + 4 * i < RX_BUFFER_BASE + 512 := by omega
    have hin' : RX_BUFFER_BASE ≤ RX_BUFFER_BASE + 4 * i ∧
        RX_BUFFER_BASE + 4 * i < RX_BUFFER_BASE + TEST_LENGTH * 4 := by
      simp only [TEST_LENGTH]; omega
    simp only [cpuView, Xil_DCacheInvalidateRange, hin, hin', and_self, if_true,
      Option.getD_none]
    rw [show RX_BUFFER_BASE + 4 * i - RX_BUFFER_BASE = 4 * i by omega]
  refine ⟨_, transferAndCheck_loopback cfgPtr retains fuel s hd, ?_, ?_⟩
  · rw [checkResult_trace]
    rw [checkEvents_congr _ (fun i => s.ram (TX_BUFFER_BASE + 4 * i))
      (fun i hi => hview i (by omega))]
    simp [Xil_DCacheInvalidateRange, TEST_LENGTH]
  · intro i hi
    rw [checkResult_view, checkResult_view, hview i hi]
    refine ⟨rfl, ?_⟩
    have hout : ¬ (RX_BUFFER_BASE ≤ TX_BUFFER_BASE + 4 * i ∧
        TX_BUFFER_BASE + 4 * i < RX_BUFFER_BASE + 512) := by
      simp only [RX_BUFFER_BASE, TX_BUFFER_BASE, MEM_BASE_ADDR]; omega
    have hout' : ¬ (RX_BUFFER_BASE ≤ TX_BUFFER_BASE + 4 * i ∧
        TX_BUFFER_BASE + 4 * i < RX_BUFFER_BASE + TEST_LENGTH * 4) := by
      simp only [RX_BUFFER_BASE, TX_BUFFER_BASE, MEM_BASE_ADDR, TEST_LENGTH]; omega
    simp only [cpuView, Xil_DCacheInvalidateRange, hout, hout', if_false]

/-- The complete run of `main` with the loop-back engine. -/
theorem main_loopback (cfgPtr : Nat) (hcfg : cfgPtr ≠ 0) (retains : Bool) (fuel : Nat)
    (ram : Nat → Nat) (cache : Nat → Option Nat) (dma : Loopback) :
    ∃ final : Machine Loopback,
      main (loopback cfgPtr retains) (fuel + 1) (boot ram cache dma) = (some 0, final) ∧
      final.trace = setupEvents (loopback cfgPtr retains) cfgPtr ++
        [rxIssue XST_SUCCESS, txIssue XST_SUCCESS] ++ idleEvents ++
        [.DCacheInvalidateRange RX_BUFFER_BASE 512] ++ checkEvents impulseWord ∧
      ∀ i, i < 128 →
        cpuView final (RX_BUFFER_BASE + 4 * i) = impulseWord i ∧
        cpuView final (TX_BUFFER_BASE + 4 * i) = impulseWord i := by
  obtain ⟨sA, hram, hcache, hdma, htrace, hmain⟩ :=
    main_of_init_ok (loopback cfgPtr retains) (fuel + 1) ram cache dma hcfg rfl
  have hd : (setupFilter (loopback cfgPtr retains)
      (flushBuffers (loopback cfgPtr retains) (prepareBuffers sA))).dma = ⟨none, none⟩ := by
    rw [(setupFilter_state _ _).2.2, flushBuffers_dma, prepareBuffers_dma, hdma]
    rfl
  obtain ⟨final, hfin, hftrace, hfview⟩ :=
    transferAndCheck_loopback_spec cfgPtr retains fuel _ hd
  have hsrc : ∀ i, i < 128 → (setupFilter (loopback cfgPtr retains)
      (flushBuffers (loopback cfgPtr retains) (prepareBuffers sA))).ram
        (TX_BUFFER_BASE + 4 * i) = impulseWord i := by
    intro i hi
    rw [(setupFilter_state _ _).1, (flushBuffers_ram _ _ i hi).1, (prepareBuffers_view sA i hi).1]
  have hsrcv : ∀ i, i < 128 → cpuView (setupFilter (loopback cfgPtr retains)
      (flushBuffers (loopback cfgPtr retains) (prepareBuffers sA)))
        (TX_BUFFER_BASE + 4 * i) = impulseWord i := by
    intro i hi
    rw [setupFilter_view, flushBuffers_view, (prepareBuffers_view sA i hi).1]
  refine ⟨final, hmain.trans hfin, ?_, ?_⟩
  · rw [hftrace, checkEvents_congr _ impulseWord (fun i hi => hsrc i (by omega))]
    rw [setupFilter_trace, flushBuffers_trace, prepareBuffers_trace, htrace]
    simp [setupEvents, loopback]
  · intro i hi
    rw [(hfview i hi).1, (hfview i hi).2, hsrc i hi, hsrcv i hi]
    exact ⟨rfl, rfl⟩

/-! ## Exit status by the engine's answers -/

theorem pollingWait_succ (P : Platform σ) (fuel : Nat) (s : Machine σ) :
    pollingWait P (fuel + 1) s =
      if (pollCondition P s).1 = true then pollingWait P fuel (pollCondition P s).2
      else (true, (pollCondition P s).2) := by
  rw [pollingWait]
  unfold pollCondition
  by_cases htx : (XAxiDma_Busy P .DMA_TO_DEVICE s).1 = true
  · simp only [htx, if_true]
  · by_cases hrx : (XAxiDma_Busy P .DEVICE_TO_DMA (XAxiDma_Busy P .DMA_TO_DEVICE s).2).1 = true
    · simp [htx, hrx]
    · simp [htx, hrx]

/-- The polling loop is still spinning after `fuel` evaluations exactly when
each of them found a channel busy. -/
theorem pollingWait_spinning (P : Platform σ) (fuel : Nat) : ∀ s : Machine σ,
    (pollingWait P fuel s).1 = false ↔
      ∀ k, k < fuel → (pollCondition P (afterPolls P k s)).1 = true := by
  induction fuel with
  | zero =>
    intro s
    constructor
    · intro _ k hk; omega
    · intro _; rfl
  | succ fuel ih =>
    intro s
    rw [pollingWait_succ]
    by_cases hc : (pollCondition P s).1 = true
    · rw [if_pos hc, ih]
      constructor
      · intro h k hk
        cases k with
        | zero => exact hc
        | succ k => exact h k (by omega)
      · intro h k hk
        exact h (k + 1) (by omega)
    · rw [if_neg hc]
      constructor
      · intro h; exact Bool.noConfusion h
      · intro h
        exact absurd (h 0 (by omega)) hc

theorem pollingWait_left (P : Platform σ) (fuel : Nat) (s : Machine σ) :
    (pollingWait P fuel s).1 = true ↔
      ∃ k, k < fuel ∧ (pollCondition P (afterPolls P k s)).1 = false := by
  constructor
  · intro h
    by_contra hno
    have hall : ∀ k, k < fuel → (pollCondition P (afterPolls P k s)).1 = true := by
      intro k hk
      by_contra hk'
      exact hno ⟨k, hk, by simpa using hk'⟩
    rw [(pollingWait_spinning P fuel s).mpr hall] at h
    exact Bool.noConfusion h
  · rintro ⟨k, hk, hidle⟩
    by_contra hno
    have hf : (pollingWait P fuel s).1 = false := by simpa using hno
    rw [(pollingWait_spinning P fuel s).mp hf k hk] at hidle
    exact Bool.noConfusion hidle

theorem transferAndCheck_status (P : Platform σ) (fuel : Nat) (s : Machine σ) :
    (transferAndCheck P fuel s).1 =
      if (XAxiDma_SimpleTransfer P RX_BUFFER_BASE (TEST_LENGTH * 4) .DEVICE_TO_DMA s).1
          ≠ XST_SUCCESS then some XST_FAILURE
      else if (XAxiDma_SimpleTransfer P TX_BUFFER_BASE (TEST_LENGTH * 4) .DMA_TO_DEVICE
          (XAxiDma_SimpleTransfer P RX_BUFFER_BASE (TEST_LENGTH * 4) .DEVICE_TO_DMA s).2).1
          ≠ XST_SUCCESS then some XST_FAILURE
      else if (pollingWait P fuel
          (XAxiDma_SimpleTransfer P TX_BUFFER_BASE (TEST_LENGTH * 4) .DMA_TO_DEVICE
            (XAxiDma_SimpleTransfer P RX_BUFFER_BASE (TEST_LENGTH * 4) .DEVICE_TO_DMA s).2).2).1
          = true then some 0
      else none := by
  by_cases hrx : (XAxiDma_SimpleTransfer P RX_BUFFER_BASE (TEST_LENGTH * 4) .DEVICE_TO_DMA s).1
      = XST_SUCCESS
  · by_cases htx : (XAxiDma_SimpleTransfer P TX_BUFFER_BASE (TEST_LENGTH * 4) .DMA_TO_DEVICE
        (XAxiDma_SimpleTransfer P RX_BUFFER_BASE (TEST_LENGTH * 4) .DEVICE_TO_DMA s).2).1
        = XST_SUCCESS
    · by_cases hw : (pollingWait P fuel
          (XAxiDma_SimpleTransfer P TX_BUFFER_BASE (TEST_LENGTH * 4) .DMA_TO_DEVICE
            (XAxiDma_SimpleTransfer P RX_BUFFER_BASE (TEST_LENGTH * 4) .DEVICE_TO_DMA s).2).2).1
          = true
      · simp [transferAndCheck, hrx, htx, hw]
      · simp [transferAndCheck, hrx, htx, hw]
    · simp [transferAndCheck, hrx, htx]
  · simp [transferAndCheck, hrx]

/-- The exit status of `main`, decided by the answers of the engine in the
order in which `main` asks for them. -/
theorem main_status (P : Platform σ) (fuel : Nat) (ram : Nat → Nat)
    (cache : Nat → Option Nat) (dma : σ) :
    (main P fuel (boot ram cache dma)).1 =
      if P.LookupConfig DMA_DEV_ID = 0 then some XST_FAILURE
      else if (P.CfgInitialize dma (P.LookupConfig DMA_DEV_ID)).1 ≠ XST_SUCCESS then
        some XST_FAILURE
      else if (rxAnswer P ram cache dma).1 ≠ XST_SUCCESS then some XST_FAILURE
      else if (txAnswer P ram cache dma).1 ≠ XST_SUCCESS then some XST_FAILURE
      else if (pollingWait P fuel (txAnswer P ram cache dma).2).1 = true then some 0
      else none := by
  have h0 : (XAxiDma_LookupConfig P DMA_DEV_ID (xil_printf .banner []
      (Xil_DCacheEnable (Xil_ICacheEnable (boot ram cache dma))))).1
      = P.LookupConfig DMA_DEV_ID := rfl
  have h1 : (XAxiDma_CfgInitialize P (P.LookupConfig DMA_DEV_ID)
      (XAxiDma_LookupConfig P DMA_DEV_ID (xil_printf .banner []
        (Xil_DCacheEnable (Xil_ICacheEnable (boot ram cache dma))))).2).1
      = (P.CfgInitialize dma (P.LookupConfig DMA_DEV_ID)).1 := rfl
  by_cases hcfg : P.LookupConfig DMA_DEV_ID = 0
  · rw [if_pos hcfg, main_cfg_not_found P fuel ram cache dma hcfg]
  · rw [if_neg hcfg]
    by_cases hst : (P.CfgInitialize dma (P.LookupConfig DMA_DEV_ID)).1 = XST_SUCCESS
    · rw [if_neg (not_not.mpr hst)]
      have hm : main P fuel (boot ram cache dma) =
          transferAndCheck P fuel (atFirstTransfer P ram cache dma) := by
        unfold atFirstTransfer initialised
        rw [← h1] at hst
        simp only [main, h0, hcfg, hst, ne_eq, not_true_eq_false, if_false]
      rw [hm, transferAndCheck_status]
      rfl
    · rw [if_pos hst]
      rw [← h1] at hst
      simp only [main, h0, hcfg, hst, ne_eq, not_false_eq_true, if_true, if_false]

/-! ## Failures and counts in a run -/

theorem isFailure_false_of_quiet (y : Event) (h1 : y.isTransfer = false)
    (h2 : y.isLookup = false) (h3 : y.isCfgInitialize = false) : y.isFailure = false := by
  cases y <;> first | rfl | exact Bool.noConfusion h1 | exact Bool.noConfusion h2 |
    exact Bool.noConfusion h3

/-- A run of `main` either holds no failed driver call and does not return
the failure status, or returns the failure status and ends with the first
failed driver call followed by one diagnostic line. -/
theorem MainRun.failure_cases {P : Platform σ} {st : Option Int} {tr : List Event}
    (h : MainRun P st tr) :
    ((st = some 0 ∨ st = none) ∧ ∀ y ∈ tr, y.isFailure = false) ∨
    (st = some XST_FAILURE ∧ ∃ A f m, tr = A ++ [f, .printf m []] ∧
      (∀ y ∈ A, y.isFailure = false) ∧
      (f = .LookupConfig DMA_DEV_ID 0 ∨
       (∃ c s, s ≠ XST_SUCCESS ∧ f = .CfgInitialize c s) ∨
       (∃ s, s ≠ XST_SUCCESS ∧ f = rxIssue s) ∨
       (∃ s, s ≠ XST_SUCCESS ∧ f = txIssue s))) := by
  cases h with
  | cfgNotFound =>
    exact Or.inr ⟨rfl, headerEvents, _, _, rfl, fun y hy => (header_quiet y hy).2.1, Or.inl rfl⟩
  | initFailed cfgPtr status h1 h2 =>
    refine Or.inr ⟨rfl, headerEvents ++ [.LookupConfig DMA_DEV_ID cfgPtr],
      .CfgInitialize cfgPtr status, .initFailed, by simp, ?_,
      Or.inr (Or.inl ⟨cfgPtr, status, h2, rfl⟩)⟩
    intro y hy
    rcases List.mem_append.mp hy with hy | hy
    · exact (header_quiet y hy).2.1
    · simp only [List.mem_singleton] at hy
      subst hy
      simp [Event.isFailure, h1]
  | rxFailed cfgPtr status h1 h2 =>
    exact Or.inr ⟨rfl, setupEvents P cfgPtr, _, _, rfl,
      fun y hy => (setupEvents_quiet P cfgPtr h1 y hy).2.1, Or.inr (Or.inr (Or.inl ⟨status, h2, rfl⟩))⟩
  | txFailed cfgPtr status h1 h2 =>
    refine Or.inr ⟨rfl, setupEvents P cfgPtr ++ [rxIssue XST_SUCCESS],
      txIssue status, .txFailed, by simp, ?_,
      Or.inr (Or.inr (Or.inr ⟨status, h2, rfl⟩))⟩
    intro y hy
    rcases List.mem_append.mp hy with hy | hy
    · exact (setupEvents_quiet P cfgPtr h1 y hy).2.1
    · simp only [List.mem_singleton] at hy
      subst hy
      simp [Event.isFailure, rxIssue]
  | spinning cfgPtr polls h1 h2 =>
    refine Or.inl ⟨Or.inr rfl, ?_⟩
    intro y hy
    simp only [List.mem_append, List.mem_cons, List.mem_singleton, List.not_mem_nil,
      or_false] at hy
    rcases hy with (hy | rfl | rfl) | hy
    · exact (setupEvents_quiet P cfgPtr h1 y hy).2.1
    · simp [Event.isFailure, rxIssue]
    · simp [Event.isFailure, txIssue]
    · exact (busy_quiet y (h2 y hy)).2.1
  | done cfgPtr polls word h1 h2 =>
    refine Or.inl ⟨Or.inl rfl, ?_⟩
    intro y hy
    have hy' : y ∈ setupEvents P cfgPtr ++ [rxIssue XST_SUCCESS, txIssue XST_SUCCESS] ∨
        y ∈ polls ++ idleEvents ++ [.DCacheInvalidateRange RX_BUFFER_BASE 512] ++
          checkEvents word := by
      simp only [List.mem_append] at hy ⊢
      tauto
    rcases hy' with hy | hy
    · simp only [List.mem_append, List.mem_cons, List.mem_singleton, List.not_mem_nil,
        or_false] at hy
      rcases hy with hy | rfl | rfl
      · exact (setupEvents_quiet P cfgPtr h1 y hy).2.1
      · simp [Event.isFailure, rxIssue]
      · simp [Event.isFailure, txIssue]
    · exact (tail_quiet polls word h2 y hy).2.1

theorem countP_zero_of_forall (q : Event → Bool) (l : List Event)
    (h : ∀ y ∈ l, q y = false) : l.countP q = 0 := by
  rw [List.countP_eq_zero]
  intro y hy
  rw [h y hy]
  exact Bool.false_ne_true

theorem prepareEvents_quiet (y : Event) (hy : y ∈ prepareEvents) :
    y.isLookup = false ∧ y.isCfgInitialize = false ∧ y.isTransfer = false := by
  rcases mem_prepareEvents y hy with rfl | ⟨i, v, _, rfl⟩ <;> exact ⟨rfl, rfl, rfl⟩

theorem setupEvents_counts (P : Platform σ) (cfgPtr : Nat) :
    (setupEvents P cfgPtr).countP Event.isLookup = 1 ∧
    (setupEvents P cfgPtr).countP Event.isCfgInitialize = 1 ∧
    (setupEvents P cfgPtr).countP (Event.isTransferTo .DEVICE_TO_DMA) = 0 ∧
    (setupEvents P cfgPtr).countP (Event.isTransferTo .DMA_TO_DEVICE) = 0 := by
  have hp1 := countP_zero_of_forall Event.isLookup prepareEvents
    (fun y hy => (prepareEvents_quiet y hy).1)
  have hp2 := countP_zero_of_forall Event.isCfgInitialize prepareEvents
    (fun y hy => (prepareEvents_quiet y hy).2.1)
  have hp3 := countP_zero_of_forall (Event.isTransferTo .DEVICE_TO_DMA) prepareEvents
    (fun y hy => isTransferTo_false_of_isTransfer _ y (prepareEvents_quiet y hy).2.2)
  have hp4 := countP_zero_of_forall (Event.isTransferTo .DMA_TO_DEVICE) prepareEvents
    (fun y hy => isTransferTo_false_of_isTransfer _ y (prepareEvents_quiet y hy).2.2)
  refine ⟨?_, ?_, ?_, ?_⟩ <;>
    simp [setupEvents, headerEvents, flushEvents, filterEvents, List.countP_append,
      List.countP_cons, hp1, hp2, hp3, hp4, Event.isLookup, Event.isCfgInitialize,
      Event.isTransferTo]

/-- In a run of `main` each of lookup, initialise, receive issue and transmit
issue occurs at most once. -/
theorem MainRun.counts {P : Platform σ} {st : Option Int} {tr : List Event}
    (h : MainRun P st tr) :
    tr.countP Event.isLookup ≤ 1 ∧ tr.countP Event.isCfgInitialize ≤ 1 ∧
    tr.countP (Event.isTransferTo .DEVICE_TO_DMA) ≤ 1 ∧
    tr.countP (Event.isTransferTo .DMA_TO_DEVICE) ≤ 1 := by
  cases h with
  | cfgNotFound =>
    simp [headerEvents, List.countP_cons, Event.isLookup, Event.isCfgInitialize,
      Event.isTransferTo]
  | initFailed cfgPtr status h1 h2 =>
    simp [headerEvents, List.countP_cons, Event.isLookup, Event.isCfgInitialize,
      Event.isTransferTo]
  | rxFailed cfgPtr status h1 h2 =>
    obtain ⟨c1, c2, c3, c4⟩ := setupEvents_counts P cfgPtr
    simp [List.countP_append, List.countP_cons, c1, c2, c3, c4, rxIssue, Event.isLookup,
      Event.isCfgInitialize, Event.isTransferTo]
  | txFailed cfgPtr status h1 h2 =>
    obtain ⟨c1, c2, c3, c4⟩ := setupEvents_counts P cfgPtr
    simp [List.countP_append, List.countP_cons, c1, c2, c3, c4, rxIssue, txIssue, Event.isLookup,
      Event.isCfgInitialize, Event.isTransferTo]
  | spinning cfgPtr polls h1 h2 =>
    obtain ⟨c1, c2, c3, c4⟩ := setupEvents_counts P cfgPtr
    have p1 := countP_zero_of_forall Event.isLookup polls
      (fun y hy => (busy_quiet y (h2 y hy)).2.2.2.1)
    have p2 := countP_zero_of_forall Event.isCfgInitialize polls
      (fun y hy => (busy_quiet y (h2 y hy)).2.2.2.2.1)
    have p3 := countP_zero_of_forall (Event.isTransferTo .DEVICE_TO_DMA) polls
      (fun y hy => (busy_quiet y (h2 y hy)).2.2.2.2.2.2.1)
    have p4 := countP_zero_of_forall (Event.isTransferTo .DMA_TO_DEVICE) polls
      (fun y hy => (busy_quiet y (h2 y hy)).2.2.2.2.2.1)
    simp [List.countP_append, List.countP_cons, c1, c2, c3, c4, p1, p2, p3, p4, rxIssue, txIssue,
      Event.isLookup, Event.isCfgInitialize, Event.isTransferTo]
  | done cfgPtr polls word h1 h2 =>
    obtain ⟨c1, c2, c3, c4⟩ := setupEvents_counts P cfgPtr
    have p1 := countP_zero_of_forall Event.isLookup _
      (fun y hy => (tail_quiet polls word h2 y hy).2.2.1)
    have p2 := countP_zero_of_forall Event.isCfgInitialize _
      (fun y hy => (tail_quiet polls word h2 y hy).2.2.2.1)
    have p3 := countP_zero_of_forall (Event.isTransferTo .DEVICE_TO_DMA) _
      (fun y hy => (tail_quiet polls word h2 y hy).2.2.2.2.2.1)
    have p4 := countP_zero_of_forall (Event.isTransferTo .DMA_TO_DEVICE) _
      (fun y hy => (tail_quiet polls word h2 y hy).2.2.2.2.1)
    have hsplit : setupEvents P cfgPtr ++ [rxIssue XST_SUCCESS, txIssue XST_SUCCESS] ++ polls ++
        idleEvents ++ [.DCacheInvalidateRange RX_BUFFER_BASE 512] ++ checkEvents word =
        (setupEvents P cfgPtr ++ [rxIssue XST_SUCCESS, txIssue XST_SUCCESS]) ++
          (polls ++ idleEvents ++ [.DCacheInvalidateRange RX_BUFFER_BASE 512] ++
            checkEvents word) := by
      simp
    rw [hsplit]
    generalize polls ++ idleEvents ++ [Event.DCacheInvalidateRange RX_BUFFER_BASE 512] ++
      checkEvents word = tl at p1 p2 p3 p4 ⊢
    simp [List.countP_append, p1, p2, p3, p4, List.countP_cons, c1, c2, c3, c4, rxIssue, txIssue,
      Event.isLookup, Event.isCfgInitialize, Event.isTransferTo]

/-- C10: for every behaviour of the DMA engine and every fuel, `main` returns
the failure status if and only if the lookup finds no descriptor, or the
initialisation, the receive issue or the transmit issue is rejected; when all
four are accepted it returns 0 as soon as one evaluation of the polling
condition finds both channels idle, and it is still polling only while every
evaluation so far found a channel busy.  A returned status does not change
with more fuel.  In the trace, the failure status goes with a failed driver
call; lookup, initialise, receive issue and transmit issue each occur at most
once; a failed driver call is followed by nothing but the diagnostic line. -/
theorem main_exit_status (P : Platform σ) (fuel : Nat) (ram : Nat → Nat)
    (cache : Nat → Option Nat) (dma : σ) :
    ((main P fuel (boot ram cache dma)).1 = some XST_FAILURE ↔
      (P.LookupConfig DMA_DEV_ID = 0 ∨
       (P.CfgInitialize dma (P.LookupConfig DMA_DEV_ID)).1 ≠ XST_SUCCESS ∨
       (rxAnswer P ram cache dma).1 ≠ XST_SUCCESS ∨
       (txAnswer P ram cache dma).1 ≠ XST_SUCCESS)) ∧
    ((main P fuel (boot ram cache dma)).1 = some 0 ↔
      (P.LookupConfig DMA_DEV_ID ≠ 0 ∧
       (P.CfgInitialize dma (P.LookupConfig DMA_DEV_ID)).1 = XST_SUCCESS ∧
       (rxAnswer P ram cache dma).1 = XST_SUCCESS ∧
       (txAnswer P ram cache dma).1 = XST_SUCCESS) ∧
      ∃ k, k < fuel ∧
        (pollCondition P (afterPolls P k (txAnswer P ram cache dma).2)).1 = false) ∧
    ((main P fuel (boot ram cache dma)).1 = none ↔
      (P.LookupConfig DMA_DEV_ID ≠ 0 ∧
       (P.CfgInitialize dma (P.LookupConfig DMA_DEV_ID)).1 = XST_SUCCESS ∧
       (rxAnswer P ram cache dma).1 = XST_SUCCESS ∧
       (txAnswer P ram cache dma).1 = XST_SUCCESS) ∧
      ∀ k, k < fuel →
        (pollCondition P (afterPolls P k (txAnswer P ram cache dma).2)).1 = true) ∧
    XST_FAILURE ≠ 0 ∧
    (∀ r final, main P fuel (boot ram cache dma) = (some r, final) →
      ∀ k, main P (fuel + k) (boot ram cache dma) = (some r, final)) ∧
    ((main P fuel (boot ram cache dma)).1 = some XST_FAILURE ↔
      (.LookupConfig DMA_DEV_ID 0 ∈ (main P fuel (boot ram cache dma)).2.trace ∨
       (∃ c s, s ≠ XST_SUCCESS ∧
         .CfgInitialize c s ∈ (main P fuel (boot ram cache dma)).2.trace) ∨
       (∃ s, s ≠ XST_SUCCESS ∧
         .SimpleTransfer RX_BUFFER_BASE 512 .DEVICE_TO_DMA s ∈
           (main P fuel (boot ram cache dma)).2.trace) ∨
       (∃ s, s ≠ XST_SUCCESS ∧
         .SimpleTransfer TX_BUFFER_BASE 512 .DMA_TO_DEVICE s ∈
           (main P fuel (boot ram cache dma)).2.trace))) ∧
    (main P fuel (boot ram cache dma)).2.trace.countP Event.isLookup ≤ 1 ∧
    (main P fuel (boot ram cache dma)).2.trace.countP Event.isCfgInitialize ≤ 1 ∧
    (main P fuel (boot ram cache dma)).2.trace.countP (Event.isTransferTo .DEVICE_TO_DMA) ≤ 1 ∧
    (main P fuel (boot ram cache dma)).2.trace.countP (Event.isTransferTo .DMA_TO_DEVICE) ≤ 1 ∧
    (∀ l1 e l2, (main P fuel (boot ram cache dma)).2.trace = l1 ++ e :: l2 →
      e.isFailure = true →
      (∀ y ∈ l1, y.isFailure = false) ∧ ∃ m, l2 = [.printf m []]) := by
  have hrun := main_run P fuel ram cache dma
  have hs := main_status P fuel ram cache dma
  have hF0 : (some XST_FAILURE : Option Int) ≠ some 0 := by decide
  refine ⟨?_, ?_, ?_, by decide, fun r final h k => main_mono P fuel _ r final h k, ?_,
    hrun.counts.1, hrun.counts.2.1, hrun.counts.2.2.1, hrun.counts.2.2.2, ?_⟩
  · rw [hs]
    by_cases hcfg : P.LookupConfig DMA_DEV_ID = 0
    · simp [hcfg]
    · by_cases hini : (P.CfgInitialize dma (P.LookupConfig DMA_DEV_ID)).1 = XST_SUCCESS
      · by_cases hrx : (rxAnswer P ram cache dma).1 = XST_SUCCESS
        · by_cases htx : (txAnswer P ram cache dma).1 = XST_SUCCESS
          · by_cases hw : (pollingWait P fuel (txAnswer P ram cache dma).2).1 = true
            · simp [hcfg, hini, hrx, htx, hw, hF0.symm]
            · simp [hcfg, hini, hrx, htx, hw]
          · simp [hcfg, hini, hrx, htx]
        · simp [hcfg, hini, hrx]
      · simp [hcfg, hini]
  · rw [hs]
    by_cases hcfg : P.LookupConfig DMA_DEV_ID = 0
    · simp [hcfg, hF0]
    · by_cases hini : (P.CfgInitialize dma (P.LookupConfig DMA_DEV_ID)).1 = XST_SUCCESS
      · by_cases hrx : (rxAnswer P ram cache dma).1 = XST_SUCCESS
        · by_cases htx : (txAnswer P ram cache dma).1 = XST_SUCCESS
          · by_cases hw : (pollingWait P fuel (txAnswer P ram cache dma).2).1 = true
            · have hk := (pollingWait_left P fuel _).mp hw
              simp [hcfg, hini, hrx, htx, hw, hk]
            · have hk : ¬ ∃ k, k < fuel ∧
                  (pollCondition P (afterPolls P k (txAnswer P ram cache dma).2)).1 = false :=
                fun h => hw ((pollingWait_left P fuel _).mpr h)
              simp only [hcfg, hini, hrx, htx, hw, ne_eq, not_true_eq_false, if_false,
                not_false_eq_true, true_and]
              constructor
              · intro h; exact Option.noConfusion h
              · intro h; exact absurd h hk
          · simp [hcfg, hini, hrx, htx, hF0]
        · simp [hcfg, hini, hrx, hF0]
      · simp [hcfg, hini, hF0]
  · rw [hs]
    by_cases hcfg : P.LookupConfig DMA_DEV_ID = 0
    · simp [hcfg]
    · by_cases hini : (P.CfgInitialize dma (P.LookupConfig DMA_DEV_ID)).1 = XST_SUCCESS
      · by_cases hrx : (rxAnswer P ram cache dma).1 = XST_SUCCESS
        · by_cases htx : (txAnswer P ram cache dma).1 = XST_SUCCESS
          · by_cases hw : (pollingWait P fuel (txAnswer P ram cache dma).2).1 = true
            · have hk : ¬ ∀ k, k < fuel →
                  (pollCondition P (afterPolls P k (txAnswer P ram cache dma).2)).1 = true := by
                intro h
                rw [(pollingWait_spinning P fuel _).mpr h] at hw
                exact Bool.noConfusion hw
              simp only [hcfg, hini, hrx, htx, hw, ne_eq, not_true_eq_false, if_false,
                not_false_eq_true, true_and, if_true]
              constructor
              · intro h; exact Option.noConfusion h
              · intro h; exact absurd h hk
            · have hf : (pollingWait P fuel (txAnswer P ram cache dma).2).1 = false := by
                simpa using hw
              have hk := (pollingWait_spinning P fuel _).mp hf
              simp only [hcfg, hini, hrx, htx, hw, ne_eq, not_true_eq_false, if_false,
                not_false_eq_true, true_and]
              exact ⟨fun _ => hk, fun _ => rfl⟩
          · simp [hcfg, hini, hrx, htx]
        · simp [hcfg, hini, hrx]
      · simp [hcfg, hini]
  · rcases hrun.failure_cases with ⟨hst, hq⟩ | ⟨hst, A, f, m, htr, hA, hf⟩
    · constructor
      · intro h
        rw [h] at hst
        rcases hst with h' | h'
        · exact absurd h' hF0
        · exact Option.noConfusion h'
      · intro h
        exfalso
        have key : ∀ e, e ∈ (main P fuel (boot ram cache dma)).2.trace →
            e.isFailure = true → False := by
          intro e he hfe
          rw [hq e he] at hfe
          exact Bool.noConfusion hfe
        rcases h with h | ⟨c, s, hs', h⟩ | ⟨s, hs', h⟩ | ⟨s, hs', h⟩
        · exact key _ h (by simp [Event.isFailure])
        · exact key _ h (by simp [Event.isFailure, hs'])
        · exact key _ h (by simp [Event.isFailure, hs'])
        · exact key _ h (by simp [Event.isFailure, hs'])
    · refine ⟨fun _ => ?_, fun _ => hst⟩
      have hmem : f ∈ (main P fuel (boot ram cache dma)).2.trace := by rw [htr]; simp
      rcases hf with rfl | ⟨c, s, hs', rfl⟩ | ⟨s, hs', rfl⟩ | ⟨s, hs', rfl⟩
      · exact Or.inl hmem
      · exact Or.inr (Or.inl ⟨c, s, hs', hmem⟩)
      · exact Or.inr (Or.inr (Or.inl ⟨s, hs', hmem⟩))
      · exact Or.inr (Or.inr (Or.inr ⟨s, hs', hmem⟩))
  · intro l1 e l2 hsplit he
    rcases hrun.failure_cases with ⟨_, hq⟩ | ⟨_, A, f, m, htr, hA, _⟩
    · exact (no_split_of_forall_false _ _ l1 l2 e hq hsplit he).elim
    · rw [htr] at hsplit
      have hB : ∀ y ∈ [Event.printf m []], y.isFailure = false := by
        intro y hy
        simp only [List.mem_singleton] at hy
        subst hy; rfl
      obtain ⟨h1, _, h2⟩ := unique_split Event.isFailure A [.printf m []] l1 l2 f e hA hB he
        (by simpa using hsplit)
      subst h1 h2
      exact ⟨hA, m, rfl⟩

/-! ## Cache maintenance around the transfers -/

theorem filterEvents_quiet (P : Platform σ) (y : Event) (hy : y ∈ filterEvents P) :
    y.writesRange TX_BUFFER_BASE 512 = false ∧ y.writesRange RX_BUFFER_BASE 512 = false := by
  simp only [filterEvents, List.mem_cons, List.mem_singleton, List.not_mem_nil, or_false] at hy
  rcases hy with rfl | rfl | rfl | rfl | rfl | rfl | rfl <;> exact ⟨rfl, rfl⟩

theorem setupEvents_split (P : Platform σ) (cfgPtr : Nat) :
    setupEvents P cfgPtr =
      (headerEvents ++
        [.LookupConfig DMA_DEV_ID cfgPtr, .CfgInitialize cfgPtr XST_SUCCESS,
         .IntrDisable XAXIDMA_IRQ_ALL_MASK .DEVICE_TO_DMA,
         .IntrDisable XAXIDMA_IRQ_ALL_MASK .DMA_TO_DEVICE] ++ prepareEvents) ++
      [.DCacheFlushRange TX_BUFFER_BASE 512, .DCacheFlushRange RX_BUFFER_BASE 512] ++
      filterEvents P := rfl

theorem mem_checkEvents_first (word : Nat → Nat) :
    Event.load RX_BUFFER_BASE (word 0) ∈ checkEvents word := by
  have hr : List.range' 0 10 = [0, 1, 2, 3, 4, 5, 6, 7, 8, 9] := by decide
  simp [checkEvents, hr]

/-- A run of `main` either issues no transfer, or consists of the setup events
and a rest in which the CPU writes to neither buffer. -/
theorem MainRun.flush_cases {P : Platform σ} {st : Option Int} {tr : List Event}
    (h : MainRun P st tr) :
    (∀ y ∈ tr, y.isTransfer = false) ∨
    ∃ cfgPtr rest, cfgPtr ≠ 0 ∧ tr = setupEvents P cfgPtr ++ rest ∧
      ∀ y ∈ rest, y.writesRange TX_BUFFER_BASE 512 = false ∧
        y.writesRange RX_BUFFER_BASE 512 = false := by
  cases h with
  | cfgNotFound =>
    left
    intro y hy
    rcases List.mem_append.mp hy with hy | hy
    · exact (header_quiet y hy).1
    · simp only [List.mem_cons, List.mem_singleton, List.not_mem_nil, or_false] at hy
      rcases hy with rfl | rfl <;> rfl
  | initFailed cfgPtr status h1 h2 =>
    left
    intro y hy
    rcases List.mem_append.mp hy with hy | hy
    · exact (header_quiet y hy).1
    · simp only [List.mem_cons, List.mem_singleton, List.not_mem_nil, or_false] at hy
      rcases hy with rfl | rfl | rfl <;> rfl
  | rxFailed cfgPtr status h1 h2 =>
    refine Or.inr ⟨cfgPtr, _, h1, rfl, ?_⟩
    intro y hy
    simp only [List.mem_cons, List.mem_singleton, List.not_mem_nil, or_false] at hy
    rcases hy with rfl | rfl <;> exact ⟨rfl, rfl⟩
  | txFailed cfgPtr status h1 h2 =>
    refine Or.inr ⟨cfgPtr, _, h1, rfl, ?_⟩
    intro y hy
    simp only [List.mem_cons, List.mem_singleton, List.not_mem_nil, or_false] at hy
    rcases hy with rfl | rfl | rfl <;> exact ⟨rfl, rfl⟩
  | spinning cfgPtr polls h1 h2 =>
    refine Or.inr ⟨cfgPtr, [rxIssue XST_SUCCESS, txIssue XST_SUCCESS] ++ polls, h1, by simp, ?_⟩
    intro y hy
    simp only [List.mem_append, List.mem_cons, List.mem_singleton, List.not_mem_nil,
      or_false] at hy
    rcases hy with (rfl | rfl) | hy
    · exact ⟨rfl, rfl⟩
    · exact ⟨rfl, rfl⟩
    · have h := busy_quiet y (h2 y hy)
      exact ⟨h.2.2.2.2.2.2.2.2.2, h.2.2.2.2.2.2.2.2.1⟩
  | done cfgPtr polls word h1 h2 =>
    refine Or.inr ⟨cfgPtr, [rxIssue XST_SUCCESS, txIssue XST_SUCCESS] ++
      (polls ++ idleEvents ++ [.DCacheInvalidateRange RX_BUFFER_BASE 512] ++ checkEvents word),
      h1, by simp, ?_⟩
    intro y hy
    rcases List.mem_append.mp hy with hy | hy
    · simp only [List.mem_cons, List.mem_singleton, List.not_mem_nil, or_false] at hy
      rcases hy with rfl | rfl <;> exact ⟨rfl, rfl⟩
    · have h := tail_quiet polls word h2 y hy
      exact ⟨h.2.2.2.2.2.2.2, h.2.2.2.2.2.2.1⟩

/-- A run of `main` that does not return 0 never reads the RX buffer; a run
that returns 0 reads it only after the polling loop saw both channels idle and
the RX range was invalidated. -/
theorem MainRun.read_cases {P : Platform σ} {st : Option Int} {tr : List Event}
    (h : MainRun P st tr) :
    (st ≠ some 0 ∧ ∀ y ∈ tr, y.readsRange RX_BUFFER_BASE 512 = false) ∨
    (st = some 0 ∧ ∃ pre word,
      tr = pre ++ [.Busy .DMA_TO_DEVICE false, .Busy .DEVICE_TO_DMA false,
        .DCacheInvalidateRange RX_BUFFER_BASE 512] ++ checkEvents word ∧
      ∀ y ∈ pre, y.readsRange RX_BUFFER_BASE 512 = false) := by
  cases h with
  | cfgNotFound =>
    refine Or.inl ⟨by decide, ?_⟩
    intro y hy
    simp only [headerEvents, List.mem_append, List.mem_cons, List.mem_singleton,
      List.not_mem_nil, or_false] at hy
    rcases hy with (rfl | rfl | rfl) | rfl | rfl <;> rfl
  | initFailed cfgPtr status h1 h2 =>
    refine Or.inl ⟨by decide, ?_⟩
    intro y hy
    simp only [headerEvents, List.mem_append, List.mem_cons, List.mem_singleton,
      List.not_mem_nil, or_false] at hy
    rcases hy with (rfl | rfl | rfl) | rfl | rfl | rfl <;> rfl
  | rxFailed cfgPtr status h1 h2 =>
    refine Or.inl ⟨by decide, ?_⟩
    intro y hy
    rcases List.mem_append.mp hy with hy | hy
    · exact (setupEvents_quiet P cfgPtr h1 y hy).2.2.2.1
    · simp only [List.mem_cons, List.mem_singleton, List.not_mem_nil, or_false] at hy
      rcases hy with rfl | rfl <;> rfl
  | txFailed cfgPtr status h1 h2 =>
    refine Or.inl ⟨by decide, ?_⟩
    intro y hy
    rcases List.mem_append.mp hy with hy | hy
    · exact (setupEvents_quiet P cfgPtr h1 y hy).2.2.2.1
    · simp only [List.mem_cons, List.mem_singleton, List.not_mem_nil, or_false] at hy
      rcases hy with rfl | rfl | rfl <;> rfl
  | spinning cfgPtr polls h1 h2 =>
    refine Or.inl ⟨by decide, ?_⟩
    intro y hy
    simp only [List.mem_append, List.mem_cons, List.mem_singleton, List.not_mem_nil,
      or_false] at hy
    rcases hy with (hy | rfl | rfl) | hy
    · exact (setupEvents_quiet P cfgPtr h1 y hy).2.2.2.1
    · rfl
    · rfl
    · exact (busy_quiet y (h2 y hy)).2.2.2.2.2.2.2.1
  | done cfgPtr polls word h1 h2 =>
    refine Or.inr ⟨rfl, setupEvents P cfgPtr ++ [rxIssue XST_SUCCESS, txIssue XST_SUCCESS] ++
      polls, word, by simp [idleEvents], ?_⟩
    intro y hy
    simp only [List.mem_append, List.mem_cons, List.mem_singleton, List.not_mem_nil,
      or_false] at hy
    rcases hy with (hy | rfl | rfl) | hy
    · exact (setupEvents_quiet P cfgPtr h1 y hy).2.2.2.1
    · rfl
    · rfl
    · exact (busy_quiet y (h2 y hy)).2.2.2.2.2.2.2.1

/-- C9: in every trace of `main` that issues a transfer, the flushes of the
full 512-byte source range and of the full 512-byte destination range come
after the last CPU write to the buffers and before the first transfer issue;
the CPU reads the destination buffer only in a run that returns 0, and there
the invalidate of the full destination range comes right after the polling
loop has seen both directions not busy and before the first read. -/
theorem cache_ops_bracket_transfers (P : Platform σ) (fuel : Nat) (ram : Nat → Nat)
    (cache : Nat → Option Nat) (dma : σ)
    (hissue : ∃ e ∈ (main P fuel (boot ram cache dma)).2.trace, e.isTransfer = true) :
    (∃ pre post, (main P fuel (boot ram cache dma)).2.trace =
        pre ++ [.DCacheFlushRange TX_BUFFER_BASE 512, .DCacheFlushRange RX_BUFFER_BASE 512] ++
          post ∧
      (∀ y ∈ pre, y.isTransfer = false) ∧
      (∀ y ∈ post, y.writesRange TX_BUFFER_BASE 512 = false ∧
        y.writesRange RX_BUFFER_BASE 512 = false)) ∧
    (((main P fuel (boot ram cache dma)).1 ≠ some 0 ∧
        ∀ y ∈ (main P fuel (boot ram cache dma)).2.trace,
          y.readsRange RX_BUFFER_BASE 512 = false) ∨
     ((main P fuel (boot ram cache dma)).1 = some 0 ∧
        ∃ pre post, (main P fuel (boot ram cache dma)).2.trace =
          pre ++ [.Busy .DMA_TO_DEVICE false, .Busy .DEVICE_TO_DMA false,
            .DCacheInvalidateRange RX_BUFFER_BASE 512] ++ post ∧
        (∀ y ∈ pre, y.readsRange RX_BUFFER_BASE 512 = false) ∧
        (∀ y ∈ post, y.isTransfer = false ∧ y.isBusy = false) ∧
        ∃ v, .load RX_BUFFER_BASE v ∈ post)) := by
  have hrun := main_run P fuel ram cache dma
  constructor
  · rcases hrun.flush_cases with hno | ⟨cfgPtr, rest, hcfg, htr, hrest⟩
    · obtain ⟨e, he, hte⟩ := hissue
      rw [hno e he] at hte
      exact Bool.noConfusion hte
    · refine ⟨headerEvents ++
        [.LookupConfig DMA_DEV_ID cfgPtr, .CfgInitialize cfgPtr XST_SUCCESS,
         .IntrDisable XAXIDMA_IRQ_ALL_MASK .DEVICE_TO_DMA,
         .IntrDisable XAXIDMA_IRQ_ALL_MASK .DMA_TO_DEVICE] ++ prepareEvents,
        filterEvents P ++ rest, by rw [htr, setupEvents_split]; simp, ?_, ?_⟩
      · intro y hy
        refine (setupEvents_quiet P cfgPtr hcfg y ?_).1
        rw [setupEvents_split]
        simp only [List.mem_append] at hy ⊢
        tauto
      · intro y hy
        rcases List.mem_append.mp hy with hy | hy
        · exact filterEvents_quiet P y hy
        · exact hrest y hy
  · rcases hrun.read_cases with h | ⟨hst, pre, word, htr, hpre⟩
    · exact Or.inl h
    · refine Or.inr ⟨hst, pre, checkEvents word, htr, hpre, ?_, _, mem_checkEvents_first word⟩
      intro y hy
      exact ⟨(checkEvents_quiet word y hy).1, (checkEvents_quiet word y hy).2.2.1⟩

/-! ## The claims on the filter driver and on the runs of `main` -/

theorem roundTowardZero_intCast (n : Int) : roundTowardZero (n : ℚ) = n := by
  unfold roundTowardZero
  split <;> simp

theorem isBinary32_half : IsBinary32 (1 / 2) :=
  ⟨1, -1, by norm_num, by norm_num, by norm_num, by norm_num⟩

theorem isBinary32_zero : IsBinary32 0 :=
  ⟨0, 0, by norm_num, by norm_num, by norm_num, by norm_num⟩

/-- C1: for coefficients in [-1, 1), `IIR_Set_Coefficients` performs exactly
three register writes, to filter base + 0x04, + 0x08 and + 0x0C in that order;
the value written for a coefficient c is the sign extension to 32 bits of
round-toward-zero(c * 2^15), which lies in [-32768, 32767].  The conversion
truncates: -0.75 * 2^-15 is written as 0, where floor and round-to-nearest
give -1.  (0.5, 0.0, 0.5) writes 16384, 0, 16384. -/
theorem IIR_Set_Coefficients_writes (P : Platform σ) (s : Machine σ) (a0 a1 b1 : ℚ)
    (hmul : ∀ x y, IsBinary32 x → IsBinary32 y → IsBinary32 (x * y) → P.fmul x y = x * y)
    (h0 : IsBinary32 a0) (h1 : IsBinary32 a1) (h2 : IsBinary32 b1)
    (r0 : -1 ≤ a0 ∧ a0 < 1) (r1 : -1 ≤ a1 ∧ a1 < 1) (r2 : -1 ≤ b1 ∧ b1 < 1) :
    (IIR_Set_Coefficients P a0 a1 b1 s).trace = s.trace ++
      [.Out32 (0xA0010000 + 0x04) (signExtend32 (roundTowardZero (a0 * 2 ^ 15))),
       .Out32 (0xA0010000 + 0x08) (signExtend32 (roundTowardZero (a1 * 2 ^ 15))),
       .Out32 (0xA0010000 + 0x0C) (signExtend32 (roundTowardZero (b1 * 2 ^ 15))),
       .printf .coeffsUpdated [roundTowardZero (a0 * 2 ^ 15), roundTowardZero (a1 * 2 ^ 15),
         roundTowardZero (b1 * 2 ^ 15)]] ∧
    (-32768 ≤ roundTowardZero (a0 * 2 ^ 15) ∧ roundTowardZero (a0 * 2 ^ 15) ≤ 32767) ∧
    (-32768 ≤ roundTowardZero (a1 * 2 ^ 15) ∧ roundTowardZero (a1 * 2 ^ 15) ≤ 32767) ∧
    (-32768 ≤ roundTowardZero (b1 * 2 ^ 15) ∧ roundTowardZero (b1 * 2 ^ 15) ≤ 32767) ∧
    (IIR_Set_Coefficients P a0 a1 b1 s).ram = s.ram ∧
    (IIR_Set_Coefficients P a0 a1 b1 s).cache = s.cache ∧
    (IIR_Set_Coefficients P a0 a1 b1 s).dma = s.dma ∧
    castFloatToInt16 (P.fmul (-3 / 131072) 32768) = 0 ∧
    (IIR_Set_Coefficients P (1 / 2) 0 (1 / 2) s).trace = s.trace ++
      [.Out32 0xA0010004 16384, .Out32 0xA0010008 0, .Out32 0xA001000C 16384,
       .printf .coeffsUpdated [16384, 0, 16384]] := by
  obtain ⟨e0, u0, b0⟩ := q15_encoding P a0 hmul h0 r0.1 r0.2
  obtain ⟨e1, u1, b1'⟩ := q15_encoding P a1 hmul h1 r1.1 r1.2
  obtain ⟨e2, u2, b2⟩ := q15_encoding P b1 hmul h2 r2.1 r2.2
  refine ⟨?_, b0, b1', b2, rfl, rfl, rfl, ?_, ?_⟩
  · rw [IIR_Set_Coefficients_trace, u0, u1, u2, e0, e1, e2]
    rfl
  · have hb : IsBinary32 (-3 / 131072) :=
      ⟨-3, -17, by norm_num, by norm_num, by norm_num, by norm_num⟩
    obtain ⟨e, _, _⟩ := q15_encoding P (-3 / 131072) hmul hb (by norm_num) (by norm_num)
    rw [e]
    unfold roundTowardZero
    rw [if_neg (by norm_num)]
    rw [Int.ceil_eq_iff]
    norm_num
  · obtain ⟨eh, uh, _⟩ := q15_encoding P (1 / 2) hmul isBinary32_half (by norm_num) (by norm_num)
    obtain ⟨ez, uz, _⟩ := q15_encoding P 0 hmul isBinary32_zero (by norm_num) (by norm_num)
    have vh : roundTowardZero ((1 / 2 : ℚ) * 2 ^ 15) = 16384 := by
      have : ((1 / 2 : ℚ) * 2 ^ 15) = ((16384 : Int) : ℚ) := by norm_num
      rw [this, roundTowardZero_intCast]
    have vz : roundTowardZero ((0 : ℚ) * 2 ^ 15) = 0 := by
      have : ((0 : ℚ) * 2 ^ 15) = ((0 : Int) : ℚ) := by norm_num
      rw [this, roundTowardZero_intCast]
    rw [IIR_Set_Coefficients_trace, eh, ez, vh, vz]
    rfl

theorem IIR_Set_Coefficients_writes_witness :
    (IIR_Set_Coefficients (loopback 1 false) (1 / 4) (-1) (-1 / 2)
      (boot (fun _ => 0) (fun _ => none) (⟨none, none⟩ : Loopback))).trace =
      [.Out32 (0xA0010000 + 0x04) (signExtend32 (roundTowardZero ((1 / 4 : ℚ) * 2 ^ 15))),
       .Out32 (0xA0010000 + 0x08) (signExtend32 (roundTowardZero ((-1 : ℚ) * 2 ^ 15))),
       .Out32 (0xA0010000 + 0x0C) (signExtend32 (roundTowardZero ((-1 / 2 : ℚ) * 2 ^ 15))),
       .printf .coeffsUpdated [roundTowardZero ((1 / 4 : ℚ) * 2 ^ 15),
         roundTowardZero ((-1 : ℚ) * 2 ^ 15), roundTowardZero ((-1 / 2 : ℚ) * 2 ^ 15)]] ∧
    signExtend32 (roundTowardZero ((-1 : ℚ) * 2 ^ 15)) = 0xFFFF8000 :=
  ⟨(IIR_Set_Coefficients_writes (loopback 1 false)
      (boot (fun _ => 0) (fun _ => none) (⟨none, none⟩ : Loopback)) (1 / 4) (-1) (-1 / 2)
      (fun _ _ _ _ _ => rfl)
      ⟨1, -2, by norm_num, by norm_num, by norm_num, by norm_num⟩
      ⟨-1, 0, by norm_num, by norm_num, by norm_num, by norm_num⟩
      ⟨-1, -1, by norm_num, by norm_num, by norm_num, by norm_num⟩
      (by norm_num) (by norm_num) (by norm_num)).1,
   by
    have : ((-1 : ℚ) * 2 ^ 15) = ((-32768 : Int) : ℚ) := by norm_num
    rw [this, roundTowardZero_intCast]
    decide⟩

/-- C2: for a coefficient c with -0.99 ≤ c ≤ 0.99, the Q1.15 encoding q that
`IIR_Set_Coefficients` computes (the 16-bit cast of c * 32768) decodes back to
c within 2^-15. -/
theorem q15_round_trip (P : Platform σ) (c : ℚ)
    (hmul : ∀ x y, IsBinary32 x → IsBinary32 y → IsBinary32 (x * y) → P.fmul x y = x * y)
    (hc : IsBinary32 c) (h1 : -99 / 100 ≤ c) (h2 : c ≤ 99 / 100) :
    |decodeQ15 (castFloatToInt16 (P.fmul c 32768)) - c| ≤ 1 / 2 ^ 15 := by
  obtain ⟨e, _, _⟩ := q15_encoding P c hmul hc (by linarith) (by linarith)
  rw [e]
  have herr := roundTowardZero_error (c * 2 ^ 15)
  unfold decodeQ15
  have hrw : (roundTowardZero (c * 2 ^ 15) : ℚ) / 32768 - c
      = ((roundTowardZero (c * 2 ^ 15) : ℚ) - c * 2 ^ 15) / 32768 := by
    field_simp; ring
  rw [hrw, abs_div]
  have h32 : |(32768 : ℚ)| = 32768 := abs_of_pos (by norm_num)
  rw [h32, div_le_iff₀ (by norm_num)]
  norm_num
  exact le_of_lt herr

theorem q15_round_trip_witness :
    |decodeQ15 (castFloatToInt16 ((loopback 1 false).fmul (-5 / 8) 32768)) - (-5 / 8)|
      ≤ 1 / 2 ^ 15 :=
  q15_round_trip (loopback 1 false) (-5 / 8) (fun _ _ _ _ _ => rfl)
    ⟨-5, -3, by norm_num, by norm_num, by norm_num, by norm_num⟩ (by norm_num) (by norm_num)

theorem rx_issue_precedes_tx_issue_witness :
    ∃ l1 l2,
      (main (loopback 1 false) 1
        (boot (fun _ => 0) (fun _ => none) (⟨none, none⟩ : Loopback))).2.trace =
        l1 ++ .SimpleTransfer TX_BUFFER_BASE 512 .DMA_TO_DEVICE XST_SUCCESS :: l2 ∧
      (∃ l0, l1 = l0 ++ [.SimpleTransfer RX_BUFFER_BASE 512 .DEVICE_TO_DMA XST_SUCCESS] ∧
        ∀ y ∈ l0, y.isTransfer = false) ∧
      (∀ y ∈ l2, y.isTransfer = false) := by
  obtain ⟨final, hm, ht, _⟩ := main_loopback 1 (by decide) false 0 (fun _ => 0)
    (fun _ => none) ⟨none, none⟩
  have hsplit : (main (loopback 1 false) 1
      (boot (fun _ => 0) (fun _ => none) (⟨none, none⟩ : Loopback))).2.trace =
      (setupEvents (loopback 1 false) 1 ++ [rxIssue XST_SUCCESS]) ++
        .SimpleTransfer TX_BUFFER_BASE 512 .DMA_TO_DEVICE XST_SUCCESS ::
          (idleEvents ++ [.DCacheInvalidateRange RX_BUFFER_BASE 512] ++
            checkEvents impulseWord) := by
    rw [hm]
    simp [ht, txIssue]
  exact ⟨_, _, hsplit, rx_issue_precedes_tx_issue _ _ _ _ _ _ _ _ _ _ hsplit⟩

/-- C6: if the configuration lookup finds no descriptor, `main` returns the
failure status; after the lookup its trace holds the diagnostic line and
nothing else (no register write, no buffer write, no cache flush or
invalidate, no DMA initialise, interrupt-disable, transfer issue or poll), and
memory, cache and engine are as they were at program start. -/
theorem config_not_found_no_side_effects (P : Platform σ) (fuel : Nat) (ram : Nat → Nat)
    (cache : Nat → Option Nat) (dma : σ) (hcfg : P.LookupConfig DMA_DEV_ID = 0) :
    main P fuel (boot ram cache dma) =
      (some XST_FAILURE,
        { ram := ram, cache := cache, dma := dma,
          trace := [.ICacheEnable, .DCacheEnable, .printf .banner [],
            .LookupConfig DMA_DEV_ID 0, .printf .cfgNotFound []] }) ∧
    ∀ l1 l2, (main P fuel (boot ram cache dma)).2.trace =
        l1 ++ .LookupConfig DMA_DEV_ID 0 :: l2 →
      l2 = [.printf .cfgNotFound []] ∧ ∀ y ∈ l2, y.isPrintf = true := by
  have hm := main_cfg_not_found P fuel ram cache dma hcfg
  refine ⟨hm, ?_⟩
  intro l1 l2 hsplit
  rw [hm] at hsplit
  have hA : ∀ y ∈ [Event.ICacheEnable, Event.DCacheEnable, Event.printf .banner []],
      y.isLookup = false := by
    intro y hy
    simp only [List.mem_cons, List.mem_singleton, List.not_mem_nil, or_false] at hy
    rcases hy with rfl | rfl | rfl <;> rfl
  have hB : ∀ y ∈ [Event.printf .cfgNotFound []], y.isLookup = false := by
    intro y hy
    simp only [List.mem_singleton] at hy
    subst hy; rfl
  obtain ⟨_, _, h2⟩ := unique_split Event.isLookup _ _ l1 l2 (.LookupConfig DMA_DEV_ID 0)
    (.LookupConfig DMA_DEV_ID 0) hA hB rfl (by simpa using hsplit)
  subst h2
  refine ⟨rfl, ?_⟩
  intro y hy
  simp only [List.mem_singleton] at hy
  subst hy; rfl

theorem config_not_found_no_side_effects_witness :
    main (loopback 0 true) 5 (boot (fun a => a) (fun _ => some 7) (⟨some (1, 2), none⟩ : Loopback)) =
      (some XST_FAILURE,
        { ram := fun a => a, cache := fun _ => some 7, dma := ⟨some (1, 2), none⟩,
          trace := [.ICacheEnable, .DCacheEnable, .printf .banner [],
            .LookupConfig DMA_DEV_ID 0, .printf .cfgNotFound []] }) :=
  (config_not_found_no_side_effects (loopback 0 true) 5 (fun a => a) (fun _ => some 7)
    ⟨some (1, 2), none⟩ rfl).1

/-- C7: with the loop-back engine (it accepts every request, copies the
128-word source buffer from DMA-visible memory into the destination buffer on
issue and reports not busy), the sequence run by `main` (flush both ranges,
issue receive, issue transmit, poll until idle, invalidate the destination
range, decode) reproduces the values written during buffer preparation: every
destination frame equals the source frame, frame 0 is (10000, 10000) and every
other frame is (0, 0); `main` decodes and reports the first ten of them. -/
theorem loopback_round_trip (cfgPtr : Nat) (hcfg : cfgPtr ≠ 0) (retains : Bool) (fuel : Nat)
    (ram : Nat → Nat) (cache : Nat → Option Nat) (dma : Loopback) :
    ∃ final : Machine Loopback,
      main (loopback cfgPtr retains) (fuel + 1) (boot ram cache dma) = (some 0, final) ∧
      final.trace = setupEvents (loopback cfgPtr retains) cfgPtr ++
        [rxIssue XST_SUCCESS, txIssue XST_SUCCESS] ++ idleEvents ++
        [.DCacheInvalidateRange RX_BUFFER_BASE 512] ++ checkEvents impulseWord ∧
      ∀ i, i < 128 →
        cpuView final (RX_BUFFER_BASE + 4 * i) = cpuView final (TX_BUFFER_BASE + 4 * i) ∧
        cpuView final (TX_BUFFER_BASE + 4 * i) = impulseWord i ∧
        (decodeLeft (cpuView final (RX_BUFFER_BASE + 4 * i)),
          decodeRight (cpuView final (RX_BUFFER_BASE + 4 * i))) = impulseFrame i ∧
        impulseFrame i = (if i = 0 then (10000, 10000) else (0, 0)) := by
  obtain ⟨final, hm, ht, hv⟩ := main_loopback cfgPtr hcfg retains fuel ram cache dma
  refine ⟨final, hm, ht, ?_⟩
  intro i hi
  obtain ⟨hrx, htx⟩ := hv i hi
  refine ⟨by rw [hrx, htx], htx, ?_, rfl⟩
  rw [hrx]
  by_cases h0 : i = 0
  · subst h0; decide
  · simp only [impulseWord, impulseFrame, h0, if_false]; decide

theorem loopback_round_trip_witness :
    ∃ final : Machine Loopback,
      main (loopback 1 true) 1 (boot (fun a => a) (fun _ => some 7) ⟨none, none⟩) =
        (some 0, final) ∧
      (decodeLeft (cpuView final RX_BUFFER_BASE), decodeRight (cpuView final RX_BUFFER_BASE))
        = (10000, 10000) ∧
      (decodeLeft (cpuView final (RX_BUFFER_BASE + 4 * 127)),
        decodeRight (cpuView final (RX_BUFFER_BASE + 4 * 127))) = (0, 0) := by
  obtain ⟨final, hm, _, hv⟩ := loopback_round_trip 1 (by decide) true 0 (fun a => a)
    (fun _ => some 7) ⟨none, none⟩
  refine ⟨final, hm, ?_, ?_⟩
  · have h := (hv 0 (by norm_num)).2.2.1
    simpa [impulseFrame] using h
  · have h := (hv 127 (by norm_num)).2.2.1
    simpa [impulseFrame] using h

/-- C8: when the engine is found and initialised, `main` issues its first
transfer in the state left by buffer preparation, flush and filter setup; in
that state, and right after buffer preparation, the 128-word TX buffer holds
the impulse test vector (word 0 = 0x27102710, left = right = 10000, every other
word 0) and the 128-word RX buffer is entirely zero, for the CPU and in
DMA-visible memory, and no transfer has been issued. -/
theorem buffers_prepared (P : Platform σ) (fuel : Nat) (ram : Nat → Nat)
    (cache : Nat → Option Nat) (dma : σ) (hcfg : P.LookupConfig DMA_DEV_ID ≠ 0)
    (hst : (P.CfgInitialize dma (P.LookupConfig DMA_DEV_ID)).1 = XST_SUCCESS) :
    ∃ sA : Machine σ,
      main P fuel (boot ram cache dma) =
        transferAndCheck P fuel (setupFilter P (flushBuffers P (prepareBuffers sA))) ∧
      (∀ y ∈ (setupFilter P (flushBuffers P (prepareBuffers sA))).trace,
        y.isTransfer = false) ∧
      ∀ i, i < 128 →
        cpuView (prepareBuffers sA) (TX_BUFFER_BASE + 4 * i)
          = (if i = 0 then 0x27102710 else 0) ∧
        (decodeLeft (cpuView (prepareBuffers sA) (TX_BUFFER_BASE + 4 * i)),
          decodeRight (cpuView (prepareBuffers sA) (TX_BUFFER_BASE + 4 * i)))
          = (if i = 0 then (10000, 10000) else (0, 0)) ∧
        cpuView (prepareBuffers sA) (RX_BUFFER_BASE + 4 * i) = 0 ∧
        cpuView (setupFilter P (flushBuffers P (prepareBuffers sA))) (TX_BUFFER_BASE + 4 * i)
          = (if i = 0 then 0x27102710 else 0) ∧
        cpuView (setupFilter P (flushBuffers P (prepareBuffers sA))) (RX_BUFFER_BASE + 4 * i)
          = 0 ∧
        (setupFilter P (flushBuffers P (prepareBuffers sA))).ram (TX_BUFFER_BASE + 4 * i)
          = (if i = 0 then 0x27102710 else 0) ∧
        (setupFilter P (flushBuffers P (prepareBuffers sA))).ram (RX_BUFFER_BASE + 4 * i)
          = 0 := by
  obtain ⟨sA, _, _, _, htrace, hmain⟩ := main_of_init_ok P fuel ram cache dma hcfg hst
  refine ⟨sA, hmain, ?_, ?_⟩
  · intro y hy
    rw [setupFilter_trace, flushBuffers_trace, prepareBuffers_trace, htrace] at hy
    exact (setupEvents_quiet P _ hcfg y hy).1
  · intro i hi
    obtain ⟨v1, v2⟩ := prepareBuffers_view sA i hi
    obtain ⟨m1, m2⟩ := flushBuffers_ram P (prepareBuffers sA) i hi
    have hw : impulseWord i = (if i = 0 then 0x27102710 else 0) := rfl
    refine ⟨by rw [v1, hw], ?_, v2, ?_, ?_, ?_, ?_⟩
    · rw [v1]
      by_cases h0 : i = 0
      · subst h0; decide
      · simp only [impulseWord, h0, if_false]; decide
    · rw [setupFilter_view, flushBuffers_view, v1, hw]
    · rw [setupFilter_view, flushBuffers_view, v2]
    · rw [(setupFilter_state _ _).1, m1, v1, hw]
    · rw [(setupFilter_state _ _).1, m2, v2]

theorem buffers_prepared_witness :
    ∃ sA : Machine Loopback,
      main (loopback 1 false) 0 (boot (fun a => a) (fun _ => some 7) ⟨none, none⟩) =
        transferAndCheck (loopback 1 false) 0
          (setupFilter (loopback 1 false)
            (flushBuffers (loopback 1 false) (prepareBuffers sA))) ∧
      cpuView (prepareBuffers sA) TX_BUFFER_BASE = 0x27102710 ∧
      cpuView (prepareBuffers sA) (TX_BUFFER_BASE + 4 * 127) = 0 ∧
      (setupFilter (loopback 1 false)
        (flushBuffers (loopback 1 false) (prepareBuffers sA))).ram (RX_BUFFER_BASE + 4 * 127)
        = 0 := by
  obtain ⟨sA, hm, _, hv⟩ := buffers_prepared (loopback 1 false) 0 (fun a => a)
    (fun _ => some 7) ⟨none, none⟩ (by decide) rfl
  exact ⟨sA, hm, by simpa using (hv 0 (by norm_num)).1,
    by simpa using (hv 127 (by norm_num)).1, (hv 127 (by norm_num)).2.2.2.2.2.2⟩

theorem cache_ops_bracket_transfers_witness :
    (∃ e ∈ (main (loopback 1 false) 1
        (boot (fun _ => 0) (fun _ => none) (⟨none, none⟩ : Loopback))).2.trace,
      e.isTransfer = true) ∧
    (main (loopback 1 false) 1
        (boot (fun _ => 0) (fun _ => none) (⟨none, none⟩ : Loopback))).1 = some 0 ∧
    ∃ pre post, (main (loopback 1 false) 1
        (boot (fun _ => 0) (fun _ => none) (⟨none, none⟩ : Loopback))).2.trace =
        pre ++ [.DCacheFlushRange TX_BUFFER_BASE 512, .DCacheFlushRange RX_BUFFER_BASE 512] ++
          post ∧
      (∀ y ∈ pre, y.isTransfer = false) ∧
      (∀ y ∈ post, y.writesRange TX_BUFFER_BASE 512 = false ∧
        y.writesRange RX_BUFFER_BASE 512 = false) := by
  obtain ⟨final, hm, ht, _⟩ := main_loopback 1 (by decide) false 0 (fun _ => 0)
    (fun _ => none) ⟨none, none⟩
  have hissue : ∃ e ∈ (main (loopback 1 false) 1
      (boot (fun _ => 0) (fun _ => none) (⟨none, none⟩ : Loopback))).2.trace,
      e.isTransfer = true := by
    refine ⟨rxIssue XST_SUCCESS, ?_, rfl⟩
    rw [hm]
    simp [ht]
  exact ⟨hissue, by rw [hm],
    (cache_ops_bracket_transfers (loopback 1 false) 1 (fun _ => 0) (fun _ => none)
      ⟨none, none⟩ hissue).1⟩

theorem scripted_txAnswer_dma (cfgPtr : Nat) (iniStatus rxStatus txStatus : Int)
    (busyPolls : Nat) (ram : Nat → Nat) (cache : Nat → Option Nat) (dma : Nat) :
    (txAnswer (scripted cfgPtr iniStatus rxStatus txStatus busyPolls) ram cache dma).2.dma
      = busyPolls := by
  have h : (atFirstTransfer (scripted cfgPtr iniStatus rxStatus txStatus busyPolls)
      ram cache dma).dma = busyPolls := by
    unfold atFirstTransfer
    rw [(setupFilter_state _ _).2.2, flushBuffers_dma, prepareBuffers_dma]
    rfl
  simp only [txAnswer, rxAnswer, XAxiDma_SimpleTransfer, scripted] at h ⊢
  exact h

theorem scripted_pollCondition (cfgPtr : Nat) (iniStatus rxStatus txStatus : Int)
    (busyPolls : Nat) (s : Machine Nat) :
    (pollCondition (scripted cfgPtr iniStatus rxStatus txStatus busyPolls) s).1
      = decide (0 < s.dma) ∧
    (pollCondition (scripted cfgPtr iniStatus rxStatus txStatus busyPolls) s).2.dma
      = s.dma - 1 := by
  unfold pollCondition XAxiDma_Busy
  by_cases h : 0 < s.dma
  · simp [scripted, h]
  · have h0 : s.dma = 0 := by omega
    simp [scripted, h0]

theorem main_exit_status_witness :
    (main (scripted 1 0 0 0 1) 1 (boot (fun _ => 0) (fun _ => none) 0)).1 = none ∧
    (main (scripted 1 0 0 0 1) 2 (boot (fun _ => 0) (fun _ => none) 0)).1 = some 0 ∧
    (main (scripted 1 0 0 5 0) 3 (boot (fun _ => 0) (fun _ => none) 0)).1 = some XST_FAILURE ∧
    (main (scripted 1 0 (-2) 0 0) 3 (boot (fun _ => 0) (fun _ => none) 0)).1
      = some XST_FAILURE ∧
    (main (scripted 1 7 0 0 0) 0 (boot (fun _ => 0) (fun _ => none) 0)).1 = some XST_FAILURE := by
  have hd := scripted_txAnswer_dma 1 0 0 0 1 (fun _ => 0) (fun _ => none) 0
  have hp0 : (pollCondition (scripted 1 0 0 0 1)
      (afterPolls (scripted 1 0 0 0 1) 0
        (txAnswer (scripted 1 0 0 0 1) (fun _ => 0) (fun _ => none) 0).2)).1 = true := by
    rw [afterPolls, (scripted_pollCondition 1 0 0 0 1 _).1, hd]
    decide
  have hp1 : (pollCondition (scripted 1 0 0 0 1)
      (afterPolls (scripted 1 0 0 0 1) 1
        (txAnswer (scripted 1 0 0 0 1) (fun _ => 0) (fun _ => none) 0).2)).1 = false := by
    rw [afterPolls, afterPolls, (scripted_pollCondition 1 0 0 0 1 _).1,
      (scripted_pollCondition 1 0 0 0 1 _).2, hd]
    decide
  refine ⟨?_, ?_, ?_, ?_, ?_⟩
  · refine (main_exit_status (scripted 1 0 0 0 1) 1 (fun _ => 0) (fun _ => none) 0).2.2.1.mpr
      ⟨⟨by decide, rfl, rfl, rfl⟩, ?_⟩
    intro k hk
    have : k = 0 := by omega
    subst this
    exact hp0
  · exact (main_exit_status (scripted 1 0 0 0 1) 2 (fun _ => 0) (fun _ => none) 0).2.1.mpr
      ⟨⟨by decide, rfl, rfl, rfl⟩, 1, by decide, hp1⟩
  · exact (main_exit_status (scripted 1 0 0 5 0) 3 (fun _ => 0) (fun _ => none) 0).1.mpr
      (Or.inr (Or.inr (Or.inr (by decide))))
  · exact (main_exit_status (scripted 1 0 (-2) 0 0) 3 (fun _ => 0) (fun _ => none) 0).1.mpr
      (Or.inr (Or.inr (Or.inl (by decide))))
  · exact (main_exit_status (scripted 1 7 0 0 0) 0 (fun _ => 0) (fun _ => none) 0).1.mpr
      (Or.inr (Or.inl (by decide)))

end IIR
